import Mathlib

/-!
Verification development for the pylook repository (LeemanGeophysicalLLC/pylook).

This file shallowly embeds the core of the repository in Lean 4:
  * the numeric transforms of `pylook/calc/basic.py` (`zero`, `remove_offset`,
    `elastic_correction`, `friction`);
  * the look binary-file decoder `read_binary` of `pylook/io/lookfiles.py`;
  * the `XlookParser` command interpreter of `pylook/io/lookfiles.py`
    (`doit`, `parse_line` and the individual `command_*` handlers).

Modelling conventions:
  * Python floating point numbers are modelled by the rationals `Rat`.  All
    claims verified here are structural (which expression is computed, which
    slots are mutated, which ranges are replaced), so exact rational
    arithmetic is a faithful stand-in for IEEE doubles.
  * An 8-byte data value in a binary file is represented by its raw 8-byte
    pattern assembled (in the requested byte order) into a natural number and
    cast into `Rat`; this encoding is injective, and no verified claim
    interprets the bit patterns arithmetically.
  * A numpy array cell can be uninitialized (`np.empty`, `np.empty_like`);
    array elements are therefore `Option Rat`, with `none` standing for an
    uninitialized (garbage) cell.  Arithmetic involving a garbage cell
    produces a garbage cell.
  * Fallible Python operations (list indexing, `int()` / `float()`
    conversions, numpy shape errors, unbound local variables, calling a
    method with missing arguments) are modelled with `Except PyErr`.
  * `warnings.warn` is modelled by a `List String` of warning messages
    threaded through results: a computation returns
    `List String × Except PyErr α`, so warnings emitted before an exception
    are retained.
  * The pint unit registry and the filesystem are external collaborators;
    they are passed in as abstract functions (`Env`): `res` maps a unit
    string to `some` of the canonical rendering `str(units(s))` of the parsed
    unit or `none` when pint raises `UndefinedUnitError`, and `fs` maps a
    path to the file's bytes.
-/

namespace Pylook

/-- Array element: `some q` is a real float value, `none` an uninitialized
(garbage) numpy cell. -/
abbrev Cell := Option Rat

/-- A numpy 1-d array as held in the interpreter's Column Store. -/
abbrev PyArr := List Cell

/-- Python exceptions that the embedded code can raise. -/
inductive PyErr where
  | nameError
  | typeError
  | valueError
  | indexError
  | ioError
  | zeroDivisionError
  | unitError
  deriving DecidableEq, Repr

deriving instance DecidableEq for Except

/-! ## Python list / string semantics helpers -/

/-- Python list index normalization: negative indices wrap once from the end;
`none` when out of range (Python raises `IndexError`). -/
def pyIdx (n : Nat) (i : Int) : Option Nat :=
  let j := if i < 0 then i + n else i
  if 0 ≤ j ∧ j < n then some j.toNat else none

/-- Python `l[i]` on a list. -/
def pyGetL (l : List α) (i : Int) : Except PyErr α :=
  match pyIdx l.length i with
  | some j =>
    match l.get? j with
    | some x => .ok x
    | none => .error .indexError
  | none => .error .indexError

/-- Python `l[i] = v` on a list. -/
def pySetL (l : List α) (i : Int) (v : α) : Except PyErr (List α) :=
  match pyIdx l.length i with
  | some j => .ok (l.set j v)
  | none => .error .indexError

/-- Python slice-bound clamping (`slice.indices`): negative bounds wrap once
from the end, everything is clamped to `[0, n]`. -/
def pyBound (n : Nat) (i : Int) : Nat :=
  (if i < 0 then max (i + n) 0 else min i n).toNat

/-- Python/numpy `l[s:e]` (read). -/
def pySliceL (l : List α) (s e : Int) : List α :=
  let a := pyBound l.length s
  let b := pyBound l.length e
  (l.drop a).take (b - a)

/-- Numpy `l[s:e] = v` with a scalar right-hand side (broadcast fill). -/
def pySetSliceFill (l : List α) (s e : Int) (v : α) : List α :=
  let a := pyBound l.length s
  let b := pyBound l.length e
  l.take a ++ List.replicate (b - a) v ++ l.drop (max a b)

/-- Numpy `l[s:e] = vals` with an array right-hand side; raises when the
shapes do not match. -/
def pySetSliceArr (l : List α) (s e : Int) (vals : List α) : Except PyErr (List α) :=
  let a := pyBound l.length s
  let b := pyBound l.length e
  if vals.length = b - a then .ok (l.take a ++ vals ++ l.drop (max a b))
  else .error .valueError

/-- Numpy `np.delete(l, slice(s, e))`; `e = none` models a `None` stop
(delete through the end). -/
def pyDelete (l : List α) (s : Int) (e : Option Int) : List α :=
  let a := pyBound l.length s
  let b := match e with
           | none => l.length
           | some x => pyBound l.length x
  l.take a ++ l.drop (max a b)

/-- Characters Python's `str.strip()` removes. -/
def pyWhitespace (c : Char) : Bool :=
  c == ' ' || c == '\t' || c == '\n' || c == '\r' || c == Char.ofNat 11 || c == Char.ofNat 12

/-- Python `s.strip()`. -/
def pyStrip (s : String) : String :=
  String.mk (((s.toList.dropWhile pyWhitespace).reverse.dropWhile pyWhitespace).reverse)

/-- Split a character list at every occurrence of `sep`, keeping empty
pieces, exactly like Python `str.split(sep)` with a one-character separator. -/
def splitChar (sep : Char) : List Char → List (List Char)
  | [] => [[]]
  | c :: cs =>
    match splitChar sep cs with
    | h :: t => if c = sep then [] :: h :: t else (c :: h) :: t
    | [] => [[]]

/-- Python `s.split(sep)` for a one-character separator. -/
def pySplit (s : String) (sep : Char) : List String :=
  (splitChar sep s.toList).map String.mk

/-- Python `s.replace(',', '')`. -/
def removeCommas (s : String) : String :=
  String.mk (s.toList.filter (fun c => c ≠ ','))

/-- Python `s.startswith('#')`. -/
def pyStartsHash (s : String) : Bool :=
  match s.toList with
  | '#' :: _ => true
  | _ => false

/-- Python `'#' in s`. -/
def pyContainsChar (s : String) (c : Char) : Bool := s.toList.contains c

/-- Python `s.lower()`. -/
def pyLower (s : String) : String := String.mk (s.toList.map Char.toLower)

/-- Python `s[0:n]` on a string. -/
def strTake (s : String) (n : Nat) : String := String.mk (s.toList.take n)

/-- Decimal digit value of a character. -/
def digitVal (c : Char) : Option Nat :=
  if c = '0' then some 0 else if c = '1' then some 1 else if c = '2' then some 2
  else if c = '3' then some 3 else if c = '4' then some 4 else if c = '5' then some 5
  else if c = '6' then some 6 else if c = '7' then some 7 else if c = '8' then some 8
  else if c = '9' then some 9 else none

/-- Parse a run of decimal digits, `none` on any non-digit. -/
def parseNatAux : List Char → Nat → Option Nat
  | [], acc => some acc
  | c :: cs, acc =>
    match digitVal c with
    | some d => parseNatAux cs (acc * 10 + d)
    | none => none

/-- Parse a non-empty run of decimal digits. -/
def parseNatChars (cs : List Char) : Option Nat :=
  match cs with
  | [] => none
  | _ => parseNatAux cs 0

/-- Parse an optionally signed decimal integer literal. -/
def parseIntChars (cs : List Char) : Option Int :=
  match cs with
  | '-' :: rest => (parseNatChars rest).map (fun n => -(n : Int))
  | '+' :: rest => (parseNatChars rest).map (fun n => (n : Int))
  | _ => (parseNatChars cs).map (fun n => (n : Int))

/-- Python `int(s)` for the plain signed decimal tokens appearing in r
files; raises `ValueError` otherwise. -/
def pyInt (s : String) : Except PyErr Int :=
  match parseIntChars s.toList with
  | some i => .ok i
  | none => .error .valueError

/-- Python `float(s)` restricted to plain decimal literals (the only forms
appearing in r files); raises `ValueError` otherwise. -/
def pyFloat (s : String) : Except PyErr Rat :=
  match pySplit s '.' with
  | [a] =>
    match parseIntChars a.toList with
    | some i => .ok (i : Rat)
    | none => .error .valueError
  | [a, b] =>
    match parseIntChars a.toList, parseNatChars b.toList with
    | some i, some f =>
      let den : Rat := (10 : Rat) ^ b.length
      let frac : Rat := (f : Rat) / den
      .ok (if i < 0 ∨ a = "-0" then (i : Rat) - frac else (i : Rat) + frac)
    | _, _ => .error .valueError
  | _ => .error .valueError

/-! ## Numpy array arithmetic -/

/-- Lift a binary rational operation to possibly-uninitialized cells: any
operation touching garbage yields garbage. -/
def liftOp2 (f : Rat → Rat → Rat) : Cell → Cell → Cell
  | some a, some b => some (f a b)
  | _, _ => none

/-- Elementwise array-scalar operation (numpy broadcast of a scalar). -/
def arrScalar (f : Rat → Rat → Rat) (l : PyArr) (v : Cell) : PyArr :=
  l.map (fun x => liftOp2 f x v)

/-- Elementwise array-array operation; numpy raises on a length mismatch. -/
def arrArr (f : Rat → Rat → Rat) (x y : PyArr) : Except PyErr PyArr :=
  if x.length = y.length then .ok (List.zipWith (liftOp2 f) x y) else .error .valueError

/-- Numpy `np.mean` of an array: garbage (or an empty array, whose float mean
is NaN) gives a garbage value. -/
def meanOpt (l : PyArr) : Cell :=
  if l.length = 0 ∨ l.contains none then none
  else some ((l.foldl (fun acc x => acc + x.getD 0) 0) / (l.length : Rat))

/-- Numpy `np.cumsum`. -/
def cumsumArr (l : PyArr) : PyArr :=
  (l.foldl (fun (acc : PyArr × Cell) x =>
    let s := liftOp2 (fun a b => a + b) acc.2 x
    (acc.1 ++ [s], s)) ([], some 0)).1

/-- Numpy `a ** p` on a cell, for the exponents expressible in the rational
model (integer exponents); a non-integer exponent is outside the model and
mapped to 0 — no verified claim exercises it. -/
def qpowF (base : Rat) (e : Rat) : Rat :=
  if e.den = 1 then base ^ e.num else 0

/-- Numpy `np.polyval(coeffs, x)` at a scalar (Horner evaluation, coefficients
highest power first). -/
def polyvalQ (coeffs : List Rat) (x : Rat) : Rat :=
  coeffs.foldl (fun acc c => acc * x + c) 0

/-! ## Python aliasing model for the calc functions

The calc functions receive a caller's array object.  A statement such as
`data = data - zero_value` rebinds the local name to a fresh array, while
`data[a:b] = v` mutates the array object the local currently refers to — and
therefore the caller's array exactly when the local still refers to it.
`PyRef` tracks the local's value, the caller's object contents, and whether
they are still the same object. -/
structure PyRef where
  here : PyArr
  caller : PyArr
  sameObj : Bool
  deriving DecidableEq, Repr

/-- Function entry: the local and the caller refer to one object. -/
def PyRef.start (a : PyArr) : PyRef := ⟨a, a, true⟩

/-- `name = fresh_array` : rebind the local, leaving the caller's object. -/
def PyRef.rebind (r : PyRef) (v : PyArr) : PyRef := ⟨v, r.caller, false⟩

/-- `name[a:b] = v` : in-place mutation of the object the local refers to;
it reaches the caller's object iff they are still the same object. -/
def PyRef.mutate (r : PyRef) (f : PyArr → PyArr) : PyRef :=
  ⟨f r.here, if r.sameObj then f r.here else r.caller, r.sameObj⟩

/-! ## `pylook/calc/basic.py` -/

/-- The `mode == 'before'` step of `zero` (basic.py lines 55-56):
`data[0:zero_idx] = data[zero_idx]`, an in-place slice assignment on the
array the local currently refers to. -/
def zeroBefore (zero_idx : Int) (mode : String) (r : PyRef) : Except PyErr PyRef :=
  if mode = "before" then
    match pyGetL r.here zero_idx with
    | .error e => .error e
    | .ok v => .ok (r.mutate (fun d => pySetSliceFill d 0 zero_idx v))
  else .ok r

/-- The `mode == 'after'` step of `zero` (basic.py lines 58-59):
`data[zero_idx:] = data[zero_idx]`, in place. -/
def zeroAfter (zero_idx : Int) (mode : String) (r : PyRef) : Except PyErr PyRef :=
  if mode = "after" then
    match pyGetL r.here zero_idx with
    | .error e => .error e
    | .ok v => .ok (r.mutate (fun d => pySetSliceFill d zero_idx (d.length : Int) v))
  else .ok r

/-- The rebinding statements of `zero` (basic.py lines 48-52):
`data = data - zero_value`, then `data = data + value` when `value` is
truthy; both rebind the local to a fresh array. -/
def zeroRebound (data : PyArr) (zero_value : Cell) (value : Rat) : PyRef :=
  if value ≠ 0 then
    ((PyRef.start data).rebind
        (arrScalar (fun a b => a - b) (PyRef.start data).here zero_value)).rebind
      (arrScalar (fun a b => a + b)
        ((PyRef.start data).rebind
          (arrScalar (fun a b => a - b) (PyRef.start data).here zero_value)).here (some value))
  else
    (PyRef.start data).rebind (arrScalar (fun a b => a - b) (PyRef.start data).here zero_value)

/-- `zero(data, zero_idx, window=0, value=0, mode='at')` from
`pylook/calc/basic.py` lines 14-61.  Returns the function's return value
together with the contents of the caller's array object after the call
(`data = data - zero_value` always rebinds before any in-place slice
assignment, which is what the aliasing model makes checkable). -/
def zeroCalc (data : PyArr) (zero_idx : Int) (window : Int) (value : Rat) (mode : String) :
    Except PyErr (PyArr × PyArr) :=
  match (if window ≠ 0 then
           Except.ok (meanOpt (pySliceL data (zero_idx - window) (zero_idx + window + 1)))
         else pyGetL data zero_idx : Except PyErr Cell) with
  | .error e => .error e
  | .ok zero_value =>
    match zeroBefore zero_idx mode (zeroRebound data zero_value value) with
    | .error e => .error e
    | .ok r3 =>
      match zeroAfter zero_idx mode r3 with
      | .error e => .error e
      | .ok r4 => .ok (r4.here, r4.caller)

/-- The `set_between` step of `remove_offset` (basic.py lines 91-92):
`data[start_idx:end_idx] = data[start_idx]`, in place. -/
def offsetBetween (start_idx end_idx : Int) (set_between : Bool) (r : PyRef) :
    Except PyErr PyRef :=
  if set_between then
    match pyGetL r.here start_idx with
    | .error e => .error e
    | .ok v => .ok (r.mutate (fun d => pySetSliceFill d start_idx end_idx v))
  else .ok r

/-- `remove_offset(data, start_idx, end_idx, set_between=False)` from
`pylook/calc/basic.py` lines 64-95.  Both slice assignments are in-place on
the caller's array object (the local is never rebound), which the aliasing
model records. -/
def remove_offsetCalc (data : PyArr) (start_idx end_idx : Int) (set_between : Bool) :
    Except PyErr (PyArr × PyArr) :=
  match pyGetL data end_idx with
  | .error e => .error e
  | .ok de =>
    match pyGetL data start_idx with
    | .error e => .error e
    | .ok ds =>
      match offsetBetween start_idx end_idx set_between (PyRef.start data) with
      | .error e => .error e
      | .ok r1 =>
        match pySetSliceArr r1.here end_idx (r1.here.length : Int)
                (arrScalar (fun a b => a - b)
                  (pySliceL r1.here end_idx (r1.here.length : Int))
                  (liftOp2 (fun a b => a - b) de ds)) with
        | .error e => .error e
        | .ok newHere =>
          .ok ((r1.mutate (fun _ => newHere)).here, (r1.mutate (fun _ => newHere)).caller)

/-- `elastic_correction(load, displacement, coeffs)` from
`pylook/calc/basic.py` lines 98-134.  The pint unit plumbing
(`to_base_units`, reattaching units) only rebinds locals and converts values;
in the dimensionless setting in which the interpreter calls it the
conversions are the identity, and the body contains no in-place assignment,
so the callers' arrays are returned unchanged.  Returns
(return value, caller's load array after, caller's displacement array after). -/
def elastic_correctionCalc (load displacement : PyArr) (coeffs : List Rat) :
    Except PyErr (PyArr × PyArr × PyArr) :=
  match arrArr (fun a b => a - b) displacement (load.map (fun x => x.map (polyvalQ coeffs))) with
  | .error e => .error e
  | .ok res => .ok (res, load, displacement)

/-- The clipping floor `1e-16` used by `friction`. -/
def frictionEps : Rat := 1 / (10 ^ 16)

/-- `friction(shear_component, normal_component)` from
`pylook/calc/basic.py` lines 137-161.  `np.clip` allocates a fresh array and
the division allocates the result, so the callers' arrays are returned
unchanged. -/
def frictionCalc (shear normal : PyArr) : Except PyErr (PyArr × PyArr × PyArr) :=
  match arrArr (fun a b => a / b) shear
        (normal.map (fun x => x.map (fun v => max v frictionEps))) with
  | .error e => .error e
  | .ok res => .ok (res, shear, normal)

/-! ## The look binary-file decoder (`read_binary`, lookfiles.py lines 26-158)

A file is a `List Nat` of byte values.  `struct.unpack(fmt, f.read(n))`
raises when fewer than `n` bytes remain. -/

/-- Read `n` bytes from the stream, returning the chunk and the rest. -/
def readN : Nat → List Nat → Except PyErr (List Nat × List Nat)
  | 0, bs => .ok ([], bs)
  | _ + 1, [] => .error .valueError
  | n + 1, b :: bs =>
    match readN n bs with
    | .ok (chunk, rest) => .ok (b :: chunk, rest)
    | .error e => .error e

/-- `_binary_tuple_to_string` followed by `.split('\0')[0]`: the text before
the first NUL byte. -/
def decodeCString (bs : List Nat) : String :=
  String.mk ((bs.takeWhile (fun b => b ≠ 0)).map Char.ofNat)

/-- Assemble bytes big-endian into a natural number. -/
def beNat (bs : List Nat) : Nat := bs.foldl (fun acc b => acc * 256 + b) 0

/-- `struct.unpack('>i', ...)`: signed big-endian 32-bit integer. -/
def beInt32 (bs : List Nat) : Int :=
  let u := beNat bs
  if u < 2 ^ 31 then (u : Int) else (u : Int) - 2 ^ 32

/-- Assemble bytes little-endian into a natural number. -/
def leNat (bs : List Nat) : Nat := beNat bs.reverse

/-- A metadata value: the experiment name is a string, the rest are ints. -/
inductive MVal where
  | str (s : String)
  | int (i : Int)
  deriving DecidableEq, Repr

/-- The information read before the 32 column-header blocks
(lookfiles.py lines 58-90).  The `metadata` list models the Python dict in
insertion order; note the source stores `metadata['name']` only inside the
`if clean_header:` block. -/
structure TopHeader where
  metadata : List (String × MVal)
  numRecs : Int
  numCols : Int
  deriving DecidableEq, Repr

/-- Parse the experiment name and the four big-endian header integers
(lookfiles.py lines 65-90). -/
def parseTopHeader (clean_header : Bool) (bs : List Nat) :
    Except PyErr (TopHeader × List Nat) :=
  match readN 20 bs with
  | .error e => .error e
  | .ok (nameBytes, bs) =>
    let name0 := decodeCString nameBytes
    let md0 : List (String × MVal) :=
      if clean_header then [("name", MVal.str (pyStrip name0))] else []
    match readN 4 bs with
    | .error e => .error e
    | .ok (r1, bs) =>
      let numRecs := beInt32 r1
      match readN 4 bs with
      | .error e => .error e
      | .ok (r2, bs) =>
        let numCols := beInt32 r2
        match readN 4 bs with
        | .error e => .error e
        | .ok (r3, bs) =>
          match readN 4 bs with
          | .error e => .error e
          | .ok (r4, bs) =>
            let md := md0 ++ [("number of records", MVal.int numRecs),
                              ("number of columns", MVal.int numCols),
                              ("swp", MVal.int (beInt32 r3)),
                              ("dtime", MVal.int (beInt32 r4))]
            .ok (⟨md, numRecs, numCols⟩, bs)

/-- Parse the given number of fixed-layout column-header blocks
(lookfiles.py lines 92-128), returning the ordered active-column list of
(name, element count, unit string); blocks whose (possibly cleaned) name
starts with `no_val` are skipped. -/
def parseHeaders (clean_header : Bool) : Nat → List Nat →
    Except PyErr (List (String × Int × String) × List Nat)
  | 0, bs => .ok ([], bs)
  | n + 1, bs =>
    match readN 13 bs with
    | .error e => .error e
    | .ok (nameB, bs) =>
      match readN 13 bs with
      | .error e => .error e
      | .ok (unitB, bs) =>
        match readN 4 bs with
        | .error e => .error e
        | .ok (_, bs) =>
          match readN 50 bs with
          | .error e => .error e
          | .ok (_, bs) =>
            match readN 4 bs with
            | .error e => .error e
            | .ok (nelemB, bs) =>
              let nelem := beInt32 nelemB
              let chname := if clean_header then pyStrip (decodeCString nameB)
                            else decodeCString nameB
              let chunits := if clean_header then pyStrip (decodeCString unitB)
                             else decodeCString unitB
              match parseHeaders clean_header n bs with
              | .error e => .error e
              | .ok (rest, bs') =>
                if strTake chname 6 = "no_val" then .ok (rest, bs')
                else .ok ((chname, nelem, chunits) :: rest, bs')

/-- Cut `count` consecutive 8-byte groups off the front of a byte list. -/
def chunk8 : Nat → List Nat → List (List Nat)
  | 0, _ => []
  | k + 1, bs => bs.take 8 :: chunk8 k (bs.drop 8)

/-- The inner data-read loop for one column (lookfiles.py lines 134-140):
`for row in range(col_recs[col])`, reading one 8-byte float per iteration in
the requested byte order.  Writing `data[row, col]` raises `IndexError` as
soon as `row` reaches `num_recs`, i.e. exactly when the column's element
count exceeds the global record count.  An unrecognized byte-order string
falls into a branch that builds (and discards) a `ValueError` without
reading or assigning anything, leaving the column's cells uninitialized. -/
def readOneCol (endian : String) (numRecs : Int) (nelem : Int) (bs : List Nat) :
    Except PyErr (PyArr × List Nat) :=
  if endian = "little" then
    if numRecs < (nelem.toNat : Int) then .error .indexError
    else
      match readN (8 * nelem.toNat) bs with
      | .error e => .error e
      | .ok (chunk, rest) =>
        .ok ((chunk8 nelem.toNat chunk).map (fun g => some ((leNat g : Rat))), rest)
  else if endian = "big" then
    if numRecs < (nelem.toNat : Int) then .error .indexError
    else
      match readN (8 * nelem.toNat) bs with
      | .error e => .error e
      | .ok (chunk, rest) =>
        .ok ((chunk8 nelem.toNat chunk).map (fun g => some ((beNat g : Rat))), rest)
  else
    .ok (List.replicate nelem.toNat none, bs)

/-- The data-section read loop (lookfiles.py lines 133-140):
`for col in range(num_cols)`, each column reading `col_recs[col]` values.
`colIdx` is the current column position, the `Nat` argument the remaining
iteration count. -/
def readCols (endian : String) (numRecs : Int) (colRecs : List Int) :
    Nat → Nat → List Nat → Except PyErr (List PyArr × List Nat)
  | _, 0, bs => .ok ([], bs)
  | colIdx, n + 1, bs =>
    match colRecs.get? colIdx with
    | none => .error .indexError
    | some nelem =>
      match readOneCol endian numRecs nelem bs with
      | .error e => .error e
      | .ok (vals, bs1) =>
        match readCols endian numRecs colRecs (colIdx + 1) n bs1 with
        | .error e => .error e
        | .ok (rest, bs2) => .ok (vals :: rest, bs2)

/-- `data[:, i]` after the read loop: the `i`-th column of the
`num_recs × num_cols` matrix `np.empty` allocated at line 131 — the values
actually read for that column, padded with uninitialized cells up to the
global record count; `IndexError` for a column position the matrix does not
have. -/
def extractColumn (cols : List PyArr) (numRecs : Nat) (i : Nat) : Except PyErr PyArr :=
  match cols.get? i with
  | some v => .ok (v ++ List.replicate (numRecs - v.length) none)
  | none => .error .indexError

/-- Python dict assignment `d[k] = v`: updates the value in place when the
key exists, else appends (insertion order preserved). -/
def dictInsert (d : List (String × α)) (k : String) (v : α) : List (String × α) :=
  if d.any (fun p => p.1 = k) then d.map (fun p => if p.1 = k then (k, v) else p)
  else d ++ [(k, v)]

/-- The warning text of lookfiles.py line 152. -/
def unknownUnitWarn (u : String) : String :=
  "Unknown unit " ++ u ++ " - assigning dimensionless units."

/-- The dict-building loop of lookfiles.py lines 145-156: for each active
column in header order, resolve its unit string (falling back to
dimensionless with a warning under the `'ignore'` policy, raising
`UndefinedUnitError` otherwise) and store `data[:, i] * data_unit` under the
column's name.  `res` abstracts `str(units(u))` of the external pint
registry; a dict value is the pair (plain values, rendered unit string). -/
def buildDict (res : String → Option String) (policy : String) (cols : List PyArr)
    (numRecs : Nat) : List (String × Int × String) → Nat →
    List (String × PyArr × String) →
    List String × Except PyErr (List (String × PyArr × String))
  | [], _, acc => ([], .ok acc)
  | (name, _, unit) :: rest, i, acc =>
    match res unit with
    | some u =>
      match extractColumn cols numRecs i with
      | .error e => ([], .error e)
      | .ok v => buildDict res policy cols numRecs rest (i + 1) (dictInsert acc name (v, u))
    | none =>
      if policy = "ignore" then
        match extractColumn cols numRecs i with
        | .error e => ([unknownUnitWarn unit], .error e)
        | .ok v =>
          let (w, r) :=
            buildDict res policy cols numRecs rest (i + 1)
              (dictInsert acc name (v, "dimensionless"))
          (unknownUnitWarn unit :: w, r)
      else ([], .error .unitError)

/-- The `rec_num` entry inserted first into the data dict
(lookfiles.py line 143): `np.arange(num_recs) * units('dimensionless')`. -/
def recNumArr (numRecs : Nat) : PyArr :=
  (List.range numRecs).map (fun k => some ((k : Rat)))

/-- `read_binary(filename, data_endianness, unrecognized_units, clean_header)`
from lookfiles.py lines 26-158, over the file's bytes.  Returns the emitted
warnings and either an exception or (data dict, metadata dict).
`np.empty([num_recs, num_cols])` raises for negative dimensions. -/
def read_binary (res : String → Option String) (bytes : List Nat)
    (endian policy : String) (clean_header : Bool) :
    List String × Except PyErr (List (String × PyArr × String) × List (String × MVal)) :=
  match parseTopHeader clean_header bytes with
  | .error e => ([], .error e)
  | .ok (th, bs1) =>
    match parseHeaders clean_header 32 bs1 with
    | .error e => ([], .error e)
    | .ok (actives, bs2) =>
      if th.numRecs < 0 ∨ th.numCols < 0 then ([], .error .valueError)
      else
        match readCols endian th.numRecs (actives.map (fun a => a.2.1)) 0 th.numCols.toNat bs2 with
        | .error e => ([], .error e)
        | .ok (cols, _) =>
          let d0 : List (String × PyArr × String) :=
            [("rec_num", (recNumArr th.numRecs.toNat, "dimensionless"))]
          let (w, r) := buildDict res policy cols th.numRecs.toNat actives 0 d0
          (w, r.map (fun d => (d, th.metadata)))

/-! ## The `XlookParser` command interpreter (lookfiles.py lines 161-772) -/

/-- The interpreter's Column Store: `self.data`, `self.data_units`,
`self.data_names` (three parallel Python lists). -/
structure LookSt where
  data : List PyArr
  data_units : List (Option String)
  data_names : List (Option String)
  deriving DecidableEq, Repr

/-- `XlookParser.__init__`: 32 empty columns with absent names and units. -/
def initState : LookSt :=
  ⟨List.replicate 32 ([] : PyArr), List.replicate 32 none, List.replicate 32 none⟩

/-- The external collaborators the interpreter touches: the filesystem
(path to file bytes, `none` for a missing file) and the pint unit registry
(unit string to canonical rendering of the parsed unit, `none` for
`UndefinedUnitError`). -/
structure Env where
  fs : String → Option (List Nat)
  res : String → Option String

/-- The result of interpreting a command: the warnings emitted (in order),
then either the updated state or the Python exception that escaped. -/
abbrev Res := List String × Except PyErr LookSt

/-- The warning text of `command_invalid` (lookfiles.py line 449). -/
def invalidWarn (cmd : String) : String :=
  "Invalid Command " ++ cmd ++ " - ignored and processing proceeding."

/-- Number of whitespace-split tokens `_check_number_of_arguments` counts
(lookfiles.py line 475): `len(command.split(' '))`. -/
def numTokens (cmd : String) : Nat := (pySplit cmd ' ').length

/-- The warning text of `_check_number_of_arguments`
(lookfiles.py lines 477-478). -/
def countWarn (cmd : String) (n : Nat) : String :=
  "Command " ++ cmd ++ " expected " ++ toString n ++ ", but received " ++
  toString (numTokens cmd) ++ " - ignored and processing proceeding."

/-- `_check_number_of_arguments(command, n_args)` (lookfiles.py lines 451-480). -/
def checkNArgs (cmd : String) (n : Nat) : Bool := numTokens cmd == n

/-- `self._get_data_by_index(index)`: Python list indexing into `self.data`. -/
def getDataI (st : LookSt) (i : Int) : Except PyErr PyArr := pyGetL st.data i

/-- `self._set_data_by_index(index, data)`. -/
def setDataI (st : LookSt) (i : Int) (v : PyArr) : Except PyErr LookSt :=
  match pySetL st.data i v with
  | .error e => .error e
  | .ok d => .ok ⟨d, st.data_units, st.data_names⟩

/-- The `_set_data_by_index` / `_set_name_by_index` / `_set_units_by_index`
triple every producing command ends with (in that order). -/
def setOut (st : LookSt) (i : Int) (v : PyArr) (name unit : String) : Except PyErr LookSt :=
  match setDataI st i v with
  | .error e => .error e
  | .ok st1 =>
    match pySetL st1.data_names i (some name) with
    | .error e => .error e
    | .ok nms =>
      match pySetL st1.data_units i (some unit) with
      | .error e => .error e
      | .ok uns => .ok ⟨st1.data, uns, nms⟩

/-- The second operand of `math` / `math_int` (lookfiles.py lines 360-367 and
659-666): a column for type `:`, a float scalar for type `=`.  Any other
type token runs `command_invalid` (one warning) and — because the source
lacks a `return` there — leaves the local `second_arg_data` unbound (`none`). -/
inductive Operand where
  | arr (a : PyArr)
  | scalar (q : Rat)

/-- Evaluate the type-of-math branch of `math` / `math_int`, returning the
possibly-unbound `second_arg_data`. -/
def evalSecondOperand (st : LookSt) (cmd a2 tmath : String) :
    List String × Except PyErr (Option Operand) :=
  if tmath = ":" then
    match pyInt a2 with
    | .error e => ([], .error e)
    | .ok i =>
      match getDataI st i with
      | .error e => ([], .error e)
      | .ok d => ([], .ok (some (Operand.arr d)))
  else if tmath = "=" then
    match pyFloat a2 with
    | .error e => ([], .error e)
    | .ok q => ([], .ok (some (Operand.scalar q)))
  else ([invalidWarn cmd], .ok none)

/-- Evaluate the operation branch of `math` / `math_int` (lookfiles.py lines
369-379 and 668-678), returning the possibly-unbound `result`.  When the
operator is one of `* / + -` Python evaluates
`first_arg_data <op> second_arg_data`, raising `NameError` if
`second_arg_data` is unbound; otherwise `command_invalid` runs (one warning)
and `result` is left unbound. -/
def evalMathResult (cmd op : String) (first : PyArr) (second : Option Operand) :
    List String × Except PyErr (Option PyArr) :=
  if op = "*" ∨ op = "/" ∨ op = "+" ∨ op = "-" then
    match second with
    | none => ([], .error .nameError)
    | some s =>
      let f : Rat → Rat → Rat :=
        if op = "*" then (· * ·)
        else if op = "/" then (· / ·)
        else if op = "+" then (· + ·)
        else (· - ·)
      match s with
      | .scalar q => ([], .ok (some (arrScalar f first (some q))))
      | .arr a =>
        match arrArr f first a with
        | .error e => ([], .error e)
        | .ok r => ([], .ok (some r))
  else ([invalidWarn cmd], .ok none)

/-- `command_math` (lookfiles.py lines 327-384).  After an invalid type or
operator token the source falls through (no `return`), so the pending use of
the unbound local raises `NameError` at the operation or at the final
`_set_data_by_index(output_col_idx, result)`. -/
def command_math (st : LookSt) (cmd : String) : Res :=
  if ¬ checkNArgs cmd 8 then ([countWarn cmd 8], .ok st)
  else
    match pySplit cmd ' ' with
    | [_, a1, op, a2, tmath, outIdxS, outNameS, outUnitS] =>
      match pyInt a1 with
      | .error e => ([], .error e)
      | .ok arg1 =>
        match pyInt outIdxS with
        | .error e => ([], .error e)
        | .ok outIdx =>
          let outName := pyStrip outNameS
          let outUnit := pyStrip outUnitS
          match getDataI st arg1 with
          | .error e => ([], .error e)
          | .ok first =>
            let (w1, r1) := evalSecondOperand st cmd a2 tmath
            match r1 with
            | .error e => (w1, .error e)
            | .ok second =>
              let (w2, r2) := evalMathResult cmd op first second
              match r2 with
              | .error e => (w1 ++ w2, .error e)
              | .ok none => (w1 ++ w2, .error .nameError)
              | .ok (some result) =>
                match setOut st outIdx result outName outUnit with
                | .error e => (w1 ++ w2, .error e)
                | .ok st' => (w1 ++ w2, .ok st')
    | _ => ([], .error .valueError)

/-- `command_summation` (lookfiles.py lines 482-505). -/
def command_summation (st : LookSt) (cmd : String) : Res :=
  if ¬ checkNArgs cmd 5 then ([countWarn cmd 5], .ok st)
  else
    match pySplit cmd ' ' with
    | [_, inIdxS, outIdxS, outName, outUnit] =>
      match pyInt inIdxS with
      | .error e => ([], .error e)
      | .ok inIdx =>
        match pyInt outIdxS with
        | .error e => ([], .error e)
        | .ok outIdx =>
          match getDataI st inIdx with
          | .error e => ([], .error e)
          | .ok d =>
            match setOut st outIdx (cumsumArr d) outName outUnit with
            | .error e => ([], .error e)
            | .ok st' => ([], .ok st')
    | _ => ([], .error .valueError)

/-- `command_power` (lookfiles.py lines 507-532). -/
def command_power (st : LookSt) (cmd : String) : Res :=
  if ¬ checkNArgs cmd 6 then ([countWarn cmd 6], .ok st)
  else
    match pySplit cmd ' ' with
    | [_, powS, inIdxS, outIdxS, outName, outUnit] =>
      match pyInt inIdxS with
      | .error e => ([], .error e)
      | .ok inIdx =>
        match pyInt outIdxS with
        | .error e => ([], .error e)
        | .ok outIdx =>
          match pyFloat powS with
          | .error e => ([], .error e)
          | .ok p =>
            match getDataI st inIdx with
            | .error e => ([], .error e)
            | .ok d =>
              match setOut st outIdx (d.map (fun x => x.map (fun v => qpowF v p)))
                    outName outUnit with
              | .error e => ([], .error e)
              | .ok st' => ([], .ok st')
    | _ => ([], .error .valueError)

/-- The effect of a valid `zero` command (lookfiles.py lines 551-558): the
column is multiplied by `units('dimensionless')` (which copies it, so the
calc function cannot reach the stored array), passed to `lc.zero` with all
defaults, and the magnitude of the result is stored back; names and units
are untouched. -/
def zero_apply (st : LookSt) (col rec : Int) : Except PyErr LookSt :=
  match getDataI st col with
  | .error e => .error e
  | .ok d =>
    match zeroCalc d rec 0 0 "at" with
    | .error e => .error e
    | .ok (r, _) => setDataI st col r

/-- `command_zero` (lookfiles.py lines 534-558). -/
def command_zero (st : LookSt) (cmd : String) : Res :=
  if ¬ checkNArgs cmd 3 then ([countWarn cmd 3], .ok st)
  else
    match pySplit cmd ' ' with
    | [_, colS, recS] =>
      match pyInt colS with
      | .error e => ([], .error e)
      | .ok col =>
        match pyInt recS with
        | .error e => ([], .error e)
        | .ok rec =>
          match zero_apply st col rec with
          | .error e => ([], .error e)
          | .ok st' => ([], .ok st')
    | _ => ([], .error .valueError)

/-- The effect of a valid `ec` command (lookfiles.py lines 578-602):
`slope = 1 / float(slope)`; both columns are copied by the dimensionless
multiplication; `ec_corrected_disp = disp - elastic_correction(load, disp,
[slope, 0])`; the half-open slice `[first_idx, last_idx)` of the (copied)
displacement column is overwritten with the corresponding slice of
`ec_corrected_disp`; the result is written to the output slot with the given
name and unit. -/
def ec_apply (st : LookSt) (dispIdx loadIdx outIdx first last : Int) (slope0 : Rat)
    (outName outUnit : String) : Except PyErr LookSt :=
  match (if slope0 = 0 then .error .zeroDivisionError
         else .ok (1 / slope0) : Except PyErr Rat) with
  | .error e => .error e
  | .ok slope =>
    match getDataI st loadIdx with
    | .error e => .error e
    | .ok load_data =>
      match getDataI st dispIdx with
      | .error e => .error e
      | .ok disp_data =>
        match elastic_correctionCalc load_data disp_data [slope, 0] with
        | .error e => .error e
        | .ok (ecRes, _, _) =>
          match arrArr (fun a b => a - b) disp_data ecRes with
          | .error e => .error e
          | .ok ec_corrected =>
            match pySetSliceArr disp_data first last (pySliceL ec_corrected first last) with
            | .error e => .error e
            | .ok newDisp => setOut st outIdx newDisp outName outUnit

/-- `command_ec` (lookfiles.py lines 560-602). -/
def command_ec (st : LookSt) (cmd : String) : Res :=
  if ¬ checkNArgs cmd 9 then ([countWarn cmd 9], .ok st)
  else
    match pySplit cmd ' ' with
    | [_, dispS, loadS, outS, firstS, lastS, slopeS, outName, outUnit] =>
      match pyInt dispS with
      | .error e => ([], .error e)
      | .ok dispIdx =>
        match pyInt loadS with
        | .error e => ([], .error e)
        | .ok loadIdx =>
          match pyInt outS with
          | .error e => ([], .error e)
          | .ok outIdx =>
            match pyInt firstS with
            | .error e => ([], .error e)
            | .ok first =>
              match pyInt lastS with
              | .error e => ([], .error e)
              | .ok last =>
                match pyFloat slopeS with
                | .error e => ([], .error e)
                | .ok slope0 =>
                  match ec_apply st dispIdx loadIdx outIdx first last slope0
                        outName outUnit with
                  | .error e => ([], .error e)
                  | .ok st' => ([], .ok st')
    | _ => ([], .error .valueError)

/-- `np.empty_like(a)`: a fresh uninitialized array of the same shape. -/
def emptyLike (a : PyArr) : PyArr := List.replicate a.length none

/-- `command_r_col` (lookfiles.py lines 604-624): the slot's array is
replaced by `np.empty_like` of itself and name/units by `None`. -/
def command_r_col (st : LookSt) (cmd : String) : Res :=
  if ¬ checkNArgs cmd 2 then ([countWarn cmd 2], .ok st)
  else
    match pySplit cmd ' ' with
    | [_, colS] =>
      match pyInt colS with
      | .error e => ([], .error e)
      | .ok col =>
        match getDataI st col with
        | .error e => ([], .error e)
        | .ok d =>
          match setDataI st col (emptyLike d) with
          | .error e => ([], .error e)
          | .ok st1 =>
            match pySetL st1.data_names col none with
            | .error e => ([], .error e)
            | .ok nms =>
              match pySetL st1.data_units col none with
              | .error e => ([], .error e)
              | .ok uns => ([], .ok ⟨st1.data, uns, nms⟩)
    | _ => ([], .error .valueError)

/-- `command_math_int` (lookfiles.py lines 626-685).  `first_arg_data` is the
slot's array itself (no dimensionless copy here), so the slice assignment
`first_arg_data[start: stop] = result[start: stop]` mutates the x slot in
place; the same (mutated) object is then also stored at the output slot. -/
def command_math_int (st : LookSt) (cmd : String) : Res :=
  if ¬ checkNArgs cmd 10 then ([countWarn cmd 10], .ok st)
  else
    match pySplit cmd ' ' with
    | [_, a1, op, a2, tmath, outIdxS, startS, stopS, outNameS, outUnitS] =>
      match pyInt a1 with
      | .error e => ([], .error e)
      | .ok arg1 =>
        match pyInt outIdxS with
        | .error e => ([], .error e)
        | .ok outIdx =>
          match pyInt startS with
          | .error e => ([], .error e)
          | .ok startIdx =>
            match pyInt stopS with
            | .error e => ([], .error e)
            | .ok stopIdx =>
              let outName := pyStrip outNameS
              let outUnit := pyStrip outUnitS
              match getDataI st arg1 with
              | .error e => ([], .error e)
              | .ok first =>
                let (w1, r1) := evalSecondOperand st cmd a2 tmath
                match r1 with
                | .error e => (w1, .error e)
                | .ok second =>
                  let (w2, r2) := evalMathResult cmd op first second
                  match r2 with
                  | .error e => (w1 ++ w2, .error e)
                  | .ok none => (w1 ++ w2, .error .nameError)
                  | .ok (some result) =>
                    match pySetSliceArr first startIdx stopIdx
                          (pySliceL result startIdx stopIdx) with
                    | .error e => (w1 ++ w2, .error e)
                    | .ok newArr =>
                      match pySetL st.data arg1 newArr with
                      | .error e => (w1 ++ w2, .error e)
                      | .ok d1 =>
                        match setOut ⟨d1, st.data_units, st.data_names⟩ outIdx newArr
                              outName outUnit with
                        | .error e => (w1 ++ w2, .error e)
                        | .ok st' => (w1 ++ w2, .ok st')
    | _ => ([], .error .valueError)

/-- `command_offset_int` (lookfiles.py lines 687-720).  A flag other than
`y`/`n` executes `self.command_invalid()` — with the required `command`
argument missing — so Python raises `TypeError` before any warning is
emitted.  On the valid path the column is copied by the dimensionless
multiplication, `lc.remove_offset` is applied, and the magnitude is stored
back; names and units are untouched. -/
def command_offset_int (st : LookSt) (cmd : String) : Res :=
  if ¬ checkNArgs cmd 5 then ([countWarn cmd 5], .ok st)
  else
    match pySplit cmd ' ' with
    | [_, colS, startS, stopS, sbS] =>
      match pyInt colS with
      | .error e => ([], .error e)
      | .ok col =>
        match pyInt startS with
        | .error e => ([], .error e)
        | .ok startIdx =>
          match pyInt stopS with
          | .error e => ([], .error e)
          | .ok stopIdx =>
            match (if pyLower (pyStrip sbS) = "y" then .ok true
                   else if pyLower (pyStrip sbS) = "n" then .ok false
                   else .error .typeError : Except PyErr Bool) with
            | .error e => ([], .error e)
            | .ok sb =>
              match getDataI st col with
              | .error e => ([], .error e)
              | .ok d =>
                match remove_offsetCalc d startIdx stopIdx sb with
                | .error e => ([], .error e)
                | .ok (r, _) =>
                  match setDataI st col r with
                  | .error e => ([], .error e)
                  | .ok st' => ([], .ok st')
    | _ => ([], .error .valueError)

/-- The per-slot loop of `command_r_row` (lookfiles.py lines 743-745):
`for col_idx in range(self.max_cols)` applying `np.delete` to every slot. -/
def r_rowLoop (s : Int) (e : Option Int) : Nat → Nat → LookSt → Except PyErr LookSt
  | 0, _, st => .ok st
  | n + 1, idx, st =>
    match getDataI st (idx : Int) with
    | .error er => .error er
    | .ok d =>
      match setDataI st (idx : Int) (pyDelete d s e) with
      | .error er => .error er
      | .ok st1 => r_rowLoop s e n (idx + 1) st1

/-- `command_r_row` (lookfiles.py lines 722-745); an end index of `-1`
becomes a `None` stop (delete through the end). -/
def command_r_row (st : LookSt) (cmd : String) : Res :=
  if ¬ checkNArgs cmd 3 then ([countWarn cmd 3], .ok st)
  else
    match pySplit cmd ' ' with
    | [_, startS, endS] =>
      match pyInt startS with
      | .error e => ([], .error e)
      | .ok startIdx =>
        match pyInt endS with
        | .error e => ([], .error e)
        | .ok endIdx =>
          let stop : Option Int := if endIdx = -1 then none else some endIdx
          match r_rowLoop startIdx stop 32 0 st with
          | .error e => ([], .error e)
          | .ok st' => ([], .ok st')
    | _ => ([], .error .valueError)

/-- The slot-filling loop of `command_read` (lookfiles.py lines 768-771):
`for i, (name, data_col) in enumerate(data_dict.items())`, storing the plain
values, the name, and `str(data_col.units)` at slot `i`. -/
def readLoop : List (String × PyArr × String) → Nat → LookSt → Except PyErr LookSt
  | [], _, st => .ok st
  | (name, v, u) :: rest, i, st =>
    match setDataI st (i : Int) v with
    | .error e => .error e
    | .ok st1 =>
      match pySetL st1.data_names (i : Int) (some name) with
      | .error e => .error e
      | .ok nms =>
        match pySetL st1.data_units (i : Int) (some u) with
        | .error e => .error e
        | .ok uns => readLoop rest (i + 1) ⟨st1.data, uns, nms⟩

/-- `command_read` (lookfiles.py lines 747-771): open the file, decode it
with `read_binary` under default settings, and copy the data dict into the
Column Store slots in insertion order. -/
def command_read (env : Env) (st : LookSt) (cmd : String) : Res :=
  if ¬ checkNArgs cmd 2 then ([countWarn cmd 2], .ok st)
  else
    match pySplit cmd ' ' with
    | [_, fpathS] =>
      match env.fs (pyStrip fpathS) with
      | none => ([], .error .ioError)
      | some bytes =>
        let (w, r) := read_binary env.res bytes "little" "ignore" true
        match r with
        | .error e => (w, .error e)
        | .ok (dict, _) =>
          match readLoop dict 0 st with
          | .error e => (w, .error e)
          | .ok st' => (w, .ok st')
    | _ => ([], .error .valueError)

/-- The first whitespace-delimited token of a (stripped) line:
`line.strip().split(' ')[0]`. -/
def rootOf (line : String) : String := ((pySplit (pyStrip line) ' ').headD "")

/-- The argument a handler receives: the stripped line with commas removed,
stripped again (`action_function(line.strip())` after
`line = line.replace(',', '')`). -/
def cmdOf (line : String) : String := pyStrip (removeCommas (pyStrip line))

/-- `parse_line` (lookfiles.py lines 279-325): strip the line, treat
comment/blank lines as no-ops, take the first token as the command keyword,
strip commas from the line, and dispatch through the command table —
unknown keywords go to `command_invalid` (warn and continue). -/
def parse_line (env : Env) (st : LookSt) (line0 : String) : Res :=
  if pyStartsHash (pyStrip line0) = true ∨ pyStrip (pyStrip line0) = "" then ([], .ok st)
  else
    if rootOf (pyStrip line0) = "math" then command_math st (cmdOf line0)
    else if rootOf (pyStrip line0) = "begin" then ([], .ok st)
    else if rootOf (pyStrip line0) = "com_file" then ([], .ok st)
    else if rootOf (pyStrip line0) = "summation" then command_summation st (cmdOf line0)
    else if rootOf (pyStrip line0) = "power" then command_power st (cmdOf line0)
    else if rootOf (pyStrip line0) = "zero" then command_zero st (cmdOf line0)
    else if rootOf (pyStrip line0) = "ec" then command_ec st (cmdOf line0)
    else if rootOf (pyStrip line0) = "r_col" then command_r_col st (cmdOf line0)
    else if rootOf (pyStrip line0) = "math_int" then command_math_int st (cmdOf line0)
    else if rootOf (pyStrip line0) = "offset_int" then command_offset_int st (cmdOf line0)
    else if rootOf (pyStrip line0) = "r_row" then command_r_row st (cmdOf line0)
    else if rootOf (pyStrip line0) = "read" then command_read env st (cmdOf line0)
    else ([invalidWarn (cmdOf line0)], .ok st)

/-- The per-line comment handling of `doit` (lookfiles.py lines 270-272):
when the line contains `#`, keep only the text before it and strip it. -/
def stripLineForDoit (l : String) : String :=
  if pyContainsChar l '#' then pyStrip ((pySplit l '#').headD "") else l

/-- `doit` (lookfiles.py lines 259-277) over the script's lines: process
lines in order, halting (returning) at the first line whose
comment-stripped, whitespace-trimmed text is exactly `end`; any exception a
line raises propagates out, aborting the run. -/
def doit (env : Env) (st : LookSt) : List String → Res
  | [] => ([], .ok st)
  | l :: ls =>
    let l1 := stripLineForDoit l
    if pyStrip l1 = "end" then ([], .ok st)
    else
      match parse_line env st l1 with
      | (w, .ok st') =>
        let (w2, r) := doit env st' ls
        (w ++ w2, r)
      | (w, .error e) => (w, .error e)

/-! ## Derived dispatch facts and concrete fixtures -/

/-- The command keywords of the dispatch table (lookfiles.py lines 305-317). -/
def isKeyword (root : String) : Bool :=
  root == "math" || root == "begin" || root == "com_file" || root == "summation" ||
  root == "power" || root == "zero" || root == "ec" || root == "r_col" ||
  root == "math_int" || root == "offset_int" || root == "r_row" || root == "read"

/-- The token count each argument-checking handler passes to
`_check_number_of_arguments`; `begin` and `com_file` are unconditional no-ops
and have no expected count. -/
def expectedCount (root : String) : Option Nat :=
  if root = "math" then some 8
  else if root = "summation" then some 5
  else if root = "power" then some 6
  else if root = "zero" then some 3
  else if root = "ec" then some 9
  else if root = "r_col" then some 2
  else if root = "math_int" then some 10
  else if root = "offset_int" then some 5
  else if root = "r_row" then some 3
  else if root = "read" then some 2
  else none

/-- The unit string `command_read` ends up storing for a column whose header
unit string is `u`: the canonical rendering of the resolved unit, or
`dimensionless` when resolution failed under the `'ignore'` policy. -/
def resolvedUnit (res : String → Option String) (u : String) : String :=
  (res u).getD "dimensionless"

/-- An environment with no files and a unit registry that resolves nothing. -/
def env0 : Env := ⟨fun _ => none, fun _ => none⟩

/-- A 84-byte column-header block named `no_val` (a sentinel placeholder). -/
def noValBlock : List Nat := [110, 111, 95, 118, 97, 108] ++ List.replicate 78 0

/-- A minimal look binary file: blank name, 0 records, 0 columns, and 32
sentinel header blocks. -/
def file0 : List Nat := List.replicate 36 0 ++ (List.replicate 32 noValBlock).flatten

/-- A header block for a column named `colA` with blank units and 3 elements. -/
def colABlock : List Nat :=
  [99, 111, 108, 65] ++ List.replicate 9 0 ++ List.replicate 13 0 ++ List.replicate 4 0 ++
  List.replicate 50 0 ++ [0, 0, 0, 3]

/-- A look binary file with 3 records and one active column `colA` whose
three 8-byte data values are all zero. -/
def file1 : List Nat :=
  List.replicate 20 0 ++ [0, 0, 0, 3] ++ [0, 0, 0, 1] ++ List.replicate 8 0 ++
  colABlock ++ (List.replicate 31 noValBlock).flatten ++ List.replicate 24 0

/-- An environment exposing `file1` at path `f1`. -/
def env1 : Env := ⟨fun p => if p = "f1" then some file1 else none, fun _ => none⟩

/-- A Column Store whose slot 3 holds a two-element array named `x` with unit
`mm`. -/
def st3 : LookSt :=
  ⟨(List.replicate 32 ([] : PyArr)).set 3 [some 1, some 2],
   (List.replicate 32 (none : Option String)).set 3 (some "mm"),
   (List.replicate 32 (none : Option String)).set 3 (some "x")⟩

/-- A Column Store whose slot 0 is a displacement column `[0,0,0]` and slot 1
a load column `[1,1,1]`. -/
def st5 : LookSt :=
  ⟨[[some 0, some 0, some 0], [some 1, some 1, some 1]] ++ List.replicate 30 ([] : PyArr),
   List.replicate 32 none, List.replicate 32 none⟩

/-- The state `ec 0 1 2 0 2 1 n u` produces from `st5`: slot 2 receives the
displacement column with only the half-open range `[0, 2)` replaced. -/
def st5ec : LookSt :=
  ⟨[[some 0, some 0, some 0], [some 1, some 1, some 1], [some 1, some 1, some 0]] ++
     List.replicate 29 ([] : PyArr),
   (List.replicate 32 (none : Option String)).set 2 (some "u"),
   (List.replicate 32 (none : Option String)).set 2 (some "n")⟩

/-- The top header `file1` decodes to: blank name, 3 records, 1 column,
legacy fields 0. -/
def thF1 : TopHeader :=
  ⟨[("name", MVal.str ""), ("number of records", MVal.int 3),
    ("number of columns", MVal.int 1), ("swp", MVal.int 0), ("dtime", MVal.int 0)], 3, 1⟩

/-- The active column headers of `file1`: one column `colA`, 3 elements,
blank unit string. -/
def activesF1 : List (String × Int × String) := [("colA", 3, "")]

/-- The per-column data values read from `file1`. -/
def colsF1 : List PyArr := [[some 0, some 0, some 0]]

/-- The data dict decoding `file1` returns: the synthetic `rec_num` column
first, then `colA`. -/
def dictF1 : List (String × PyArr × String) :=
  [("rec_num", ([some 0, some 1, some 2] : PyArr), "dimensionless"),
   ("colA", ([some 0, some 0, some 0] : PyArr), "dimensionless")]

/-- The Column Store `read f1` produces from the initial state: `rec_num` in
slot 0, `colA` in slot 1, the other 30 slots untouched. -/
def stF1 : LookSt :=
  ⟨[[some 0, some 1, some 2], [some 0, some 0, some 0]] ++ List.replicate 30 ([] : PyArr),
   [some "dimensionless", some "dimensionless"] ++ List.replicate 30 (none : Option String),
   [some "rec_num", some "colA"] ++ List.replicate 30 (none : Option String)⟩

/-! ## Small facts about the aliasing model -/

theorem PyRef.rebind_caller (r : PyRef) (v : PyArr) : (r.rebind v).caller = r.caller := rfl

theorem PyRef.rebind_sameObj (r : PyRef) (v : PyArr) : (r.rebind v).sameObj = false := rfl

theorem PyRef.mutate_caller_of_not_same (r : PyRef) (f : PyArr → PyArr)
    (h : r.sameObj = false) : (r.mutate f).caller = r.caller := by
  simp [PyRef.mutate, h]

theorem PyRef.mutate_sameObj (r : PyRef) (f : PyArr → PyArr) :
    (r.mutate f).sameObj = r.sameObj := rfl

theorem PyRef.mutate_here (r : PyRef) (f : PyArr → PyArr) :
    (r.mutate f).here = f r.here := rfl

theorem PyRef.mutate_caller_of_same (r : PyRef) (f : PyArr → PyArr)
    (h : r.sameObj = true) : (r.mutate f).caller = (r.mutate f).here := by
  simp [PyRef.mutate, h]

theorem zeroRebound_sameObj (a : PyArr) (zv : Cell) (v : Rat) :
    (zeroRebound a zv v).sameObj = false := by
  unfold zeroRebound
  split <;> rfl

theorem zeroRebound_caller (a : PyArr) (zv : Cell) (v : Rat) :
    (zeroRebound a zv v).caller = a := by
  unfold zeroRebound
  split <;> rfl

/-- After the local has been rebound, the `before` step cannot reach the
caller's array. -/
theorem zeroBefore_not_same (i : Int) (mode : String) (r r' : PyRef)
    (h : zeroBefore i mode r = .ok r') (hs : r.sameObj = false) :
    r'.sameObj = false ∧ r'.caller = r.caller := by
  unfold zeroBefore at h
  split at h
  · split at h
    · exact Except.noConfusion h
    · cases h
      exact ⟨hs, by simp [PyRef.mutate, hs]⟩
  · cases h
    exact ⟨hs, rfl⟩

/-- After the local has been rebound, the `after` step cannot reach the
caller's array. -/
theorem zeroAfter_not_same (i : Int) (mode : String) (r r' : PyRef)
    (h : zeroAfter i mode r = .ok r') (hs : r.sameObj = false) :
    r'.sameObj = false ∧ r'.caller = r.caller := by
  unfold zeroAfter at h
  split at h
  · split at h
    · exact Except.noConfusion h
    · cases h
      exact ⟨hs, by simp [PyRef.mutate, hs]⟩
  · cases h
    exact ⟨hs, rfl⟩

/-- While the local still refers to the caller's object, the `set_between`
step keeps the two identical. -/
theorem offsetBetween_same (s e : Int) (b : Bool) (r r' : PyRef)
    (h : offsetBetween s e b r = .ok r') (hs : r.sameObj = true)
    (hc : r.caller = r.here) : r'.sameObj = true ∧ r'.caller = r'.here := by
  unfold offsetBetween at h
  split at h
  · split at h
    · exact Except.noConfusion h
    · cases h
      exact ⟨hs, by simp [PyRef.mutate, hs]⟩
  · cases h
    exact ⟨hs, hc⟩

/-! ## Claim C1 -/

set_option maxRecDepth 8000 in
/-- C1: the claim says a `math` / `math_int` / `offset_int` line with an
invalid operator or mode/flag token takes the invalid-command path (one
warning, the command's effect skipped, processing continues, no exception).
The code instead falls through after `command_invalid` (there is no
`return`), so `math` and `math_int` raise `NameError` on the unbound local
(`second_arg_data` or `result`) right after emitting the warning, and
`offset_int` calls `self.command_invalid()` without its required `command`
argument, raising `TypeError` before any warning: the interpreter raises
instead of continuing.  Evaluated here on concrete invalid-mode,
invalid-operator, and invalid-flag lines against a fresh interpreter state. -/
theorem c1_invalid_op_mode_raises :
    parse_line env0 initState "math 0 + 5 q 1 out mm"
      = ([invalidWarn "math 0 + 5 q 1 out mm"], .error .nameError) ∧
    parse_line env0 initState "math 0 @ 5 : 1 out mm"
      = ([invalidWarn "math 0 @ 5 : 1 out mm"], .error .nameError) ∧
    parse_line env0 initState "math_int 0 + 5 q 1 0 2 out mm"
      = ([invalidWarn "math_int 0 + 5 q 1 0 2 out mm"], .error .nameError) ∧
    parse_line env0 initState "offset_int 0 1 2 x" = ([], .error .typeError) := by
  with_unfolding_all decide

/-! ## Claim C4 -/

set_option maxRecDepth 8000 in
/-- C4: the claim says `r_col i` leaves slot `i` holding a length-zero array
with name and unit absent.  `command_r_col` instead stores
`np.empty_like(self.data[i])` — an uninitialized array of the *same shape* —
so a populated slot keeps its length and holds garbage.  Evaluated on a
store whose slot 3 holds a 2-element array: afterwards slot 3 holds a
2-element uninitialized array (not a length-zero one), while name/unit are
cleared and every other slot is unchanged. -/
theorem c4_r_col_leaves_same_length_array :
    parse_line env0 st3 "r_col 3"
      = ([], .ok ⟨(List.replicate 32 ([] : PyArr)).set 3 [none, none],
                  List.replicate 32 (none : Option String),
                  List.replicate 32 (none : Option String)⟩) ∧
    ([none, none] : PyArr).length = 2 ∧ (2 : Nat) ≠ 0 := by
  with_unfolding_all decide

/-! ## Claim C7 -/

set_option maxRecDepth 100000 in
/-- C7: the claim says the returned metadata always contains the experiment
name, the record count, the column count, and the two legacy fields,
regardless of `clean_header`.  The assignment `metadata['name'] = name` sits
inside the `if clean_header:` block (lookfiles.py lines 69-71), so with
`clean_header=False` the name key is absent.  Evaluated on a well-formed
minimal file under both flag values. -/
theorem c7_metadata_name_depends_on_clean_header :
    (read_binary (fun _ => none) file0 "little" "ignore" false).2.map
        (fun r => r.2.map (fun p => p.1))
      = .ok ["number of records", "number of columns", "swp", "dtime"] ∧
    (read_binary (fun _ => none) file0 "little" "ignore" true).2.map
        (fun r => r.2.map (fun p => p.1))
      = .ok ["name", "number of records", "number of columns", "swp", "dtime"] ∧
    ("name" ∈ ["number of records", "number of columns", "swp", "dtime"]) = False := by
  refine ⟨by with_unfolding_all decide, by with_unfolding_all decide, by simp⟩

/-! ## Claim C8 -/

set_option maxRecDepth 8000 in
/-- C8 counterexample: the claim says all four numeric transforms leave the
arrays passed to them unmodified, in particular `remove_offset`.  But
`remove_offset` performs its slice assignments in place on the caller's
array: after `remove_offset([1,2,3], 0, 2, set_between=False)` the caller's
array holds `[1,2,1]`, not `[1,2,3]`. -/
theorem c8_remove_offset_mutates_caller :
    remove_offsetCalc [some 1, some 2, some 3] 0 2 false
      = .ok ([some 1, some 2, some 1], [some 1, some 2, some 1]) ∧
    ([some 1, some 2, some 1] : PyArr) ≠ [some 1, some 2, some 3] := by
  with_unfolding_all decide

/-- C8 (amended): `zero`, `elastic_correction`, and `friction` leave the
arrays passed to them unmodified (in `zero`, the rebinding
`data = data - zero_value` always precedes the in-place slice assignments);
`remove_offset` mutates the caller's array in place, and after the call the
caller's array holds exactly the returned array. -/
theorem c8_amended_transform_side_effects :
    (∀ (a : PyArr) (i w : Int) (v : Rat) (mode : String) (r ca : PyArr),
       zeroCalc a i w v mode = .ok (r, ca) → ca = a) ∧
    (∀ (load disp : PyArr) (coeffs : List Rat) (r la da : PyArr),
       elastic_correctionCalc load disp coeffs = .ok (r, la, da) → la = load ∧ da = disp) ∧
    (∀ (s n : PyArr) (r s2 n2 : PyArr),
       frictionCalc s n = .ok (r, s2, n2) → s2 = s ∧ n2 = n) ∧
    (∀ (a : PyArr) (s e : Int) (b : Bool) (r ca : PyArr),
       remove_offsetCalc a s e b = .ok (r, ca) → ca = r) := by
  refine ⟨?_, ?_, ?_, ?_⟩
  · intro a i w v mode r ca h
    unfold zeroCalc at h
    split at h
    · exact Except.noConfusion h
    · rename_i zv hzv
      split at h
      · exact Except.noConfusion h
      · rename_i r3 hr3
        split at h
        · exact Except.noConfusion h
        · rename_i r4 hr4
          cases h
          have h3 := zeroBefore_not_same i mode _ r3 hr3 (zeroRebound_sameObj a zv v)
          have h4 := zeroAfter_not_same i mode r3 r4 hr4 h3.1
          rw [h4.2, h3.2, zeroRebound_caller a zv v]
  · intro load disp coeffs r la da h
    unfold elastic_correctionCalc at h
    split at h
    · exact Except.noConfusion h
    · simp only [Except.ok.injEq, Prod.mk.injEq] at h
      exact ⟨h.2.1.symm, h.2.2.symm⟩
  · intro s n r s2 n2 h
    unfold frictionCalc at h
    split at h
    · exact Except.noConfusion h
    · simp only [Except.ok.injEq, Prod.mk.injEq] at h
      exact ⟨h.2.1.symm, h.2.2.symm⟩
  · intro a s e b r ca h
    unfold remove_offsetCalc at h
    split at h
    · exact Except.noConfusion h
    · split at h
      · exact Except.noConfusion h
      · split at h
        · exact Except.noConfusion h
        · rename_i r1 hr1
          split at h
          · exact Except.noConfusion h
          · rename_i newHere hnew
            cases h
            have h1 := offsetBetween_same s e b _ r1 hr1 rfl rfl
            exact PyRef.mutate_caller_of_same r1 (fun _ => newHere) h1.1

/-- Witness for the amended C8 theorem: at concrete inputs, `zero` leaves
the caller's array `[1,2,4]` unchanged, and after `remove_offset` the
caller's array holds exactly the returned array. -/
theorem c8_amended_witness :
    zeroCalc [some 1, some 2, some 4] 1 0 0 "at"
        = .ok ([some (-1), some 0, some 2], [some 1, some 2, some 4]) ∧
    remove_offsetCalc [some 1, some 2, some 3] 0 2 false
        = .ok ([some 1, some 2, some 1], [some 1, some 2, some 1]) ∧
    ([some 1, some 2, some 4] : PyArr) = [some 1, some 2, some 4] ∧
    ([some 1, some 2, some 1] : PyArr) = [some 1, some 2, some 1] :=
  ⟨by with_unfolding_all decide, by with_unfolding_all decide,
   c8_amended_transform_side_effects.1 [some 1, some 2, some 4] 1 0 0 "at"
     [some (-1), some 0, some 2] [some 1, some 2, some 4] (by with_unfolding_all decide),
   c8_amended_transform_side_effects.2.2.2 [some 1, some 2, some 3] 0 2 false
     [some 1, some 2, some 1] [some 1, some 2, some 1] (by with_unfolding_all decide)⟩

/-! ## Claim C10 -/

/-- C10: once a line whose comment-stripped, whitespace-trimmed text equals
`end` is reached, `doit` halts: the run over any continuation of the script
equals the run that stops at that line — no later line is dispatched, no
later state change happens, and no later warnings are emitted.  This holds
for every prefix, whatever it does (including raising). -/
theorem c10_end_halts (env : Env) (st : LookSt) (pre post : List String) (l : String)
    (h : pyStrip (stripLineForDoit l) = "end") :
    doit env st (pre ++ l :: post) = doit env st (pre ++ [l]) := by
  induction pre generalizing st with
  | nil =>
    simp only [List.nil_append]
    unfold doit
    rw [if_pos h, if_pos h]
  | cons p ps ih =>
    simp only [List.cons_append]
    unfold doit
    by_cases hp : pyStrip (stripLineForDoit p) = "end"
    · rw [if_pos hp, if_pos hp]
    · rw [if_neg hp, if_neg hp]
      rcases hpl : parse_line env st (stripLineForDoit p) with ⟨w, r⟩
      cases r with
      | ok st' => simp only [ih st']
      | error e => rfl

/-- Witness for C10: a script whose first line is `end` followed by a
would-be command evaluates exactly like the one-line script `end`. -/
theorem c10_witness :
    doit env0 initState ["end", "math 1"] = doit env0 initState ["end"] :=
  c10_end_halts env0 initState [] ["math 1"] "end" (by with_unfolding_all decide)

/-! ## Claim C2 -/

theorem command_math_badcount (st : LookSt) (cmd : String) (h : ¬ checkNArgs cmd 8) :
    command_math st cmd = ([countWarn cmd 8], .ok st) := by
  unfold command_math
  rw [if_pos h]

theorem command_summation_badcount (st : LookSt) (cmd : String) (h : ¬ checkNArgs cmd 5) :
    command_summation st cmd = ([countWarn cmd 5], .ok st) := by
  unfold command_summation
  rw [if_pos h]

theorem command_power_badcount (st : LookSt) (cmd : String) (h : ¬ checkNArgs cmd 6) :
    command_power st cmd = ([countWarn cmd 6], .ok st) := by
  unfold command_power
  rw [if_pos h]

theorem command_zero_badcount (st : LookSt) (cmd : String) (h : ¬ checkNArgs cmd 3) :
    command_zero st cmd = ([countWarn cmd 3], .ok st) := by
  unfold command_zero
  rw [if_pos h]

theorem command_ec_badcount (st : LookSt) (cmd : String) (h : ¬ checkNArgs cmd 9) :
    command_ec st cmd = ([countWarn cmd 9], .ok st) := by
  unfold command_ec
  rw [if_pos h]

theorem command_r_col_badcount (st : LookSt) (cmd : String) (h : ¬ checkNArgs cmd 2) :
    command_r_col st cmd = ([countWarn cmd 2], .ok st) := by
  unfold command_r_col
  rw [if_pos h]

theorem command_math_int_badcount (st : LookSt) (cmd : String) (h : ¬ checkNArgs cmd 10) :
    command_math_int st cmd = ([countWarn cmd 10], .ok st) := by
  unfold command_math_int
  rw [if_pos h]

theorem command_offset_int_badcount (st : LookSt) (cmd : String) (h : ¬ checkNArgs cmd 5) :
    command_offset_int st cmd = ([countWarn cmd 5], .ok st) := by
  unfold command_offset_int
  rw [if_pos h]

theorem command_r_row_badcount (st : LookSt) (cmd : String) (h : ¬ checkNArgs cmd 3) :
    command_r_row st cmd = ([countWarn cmd 3], .ok st) := by
  unfold command_r_row
  rw [if_pos h]

theorem command_read_badcount (env : Env) (st : LookSt) (cmd : String)
    (h : ¬ checkNArgs cmd 2) :
    command_read env st cmd = ([countWarn cmd 2], .ok st) := by
  unfold command_read
  rw [if_pos h]

set_option maxHeartbeats 2000000 in
/-- C2: for every non-blank, non-comment line whose first token is not a
dispatch-table keyword, and for every line whose keyword has an expected
token count that the (comma-stripped, whitespace-trimmed) line does not
meet, `parse_line` emits exactly one warning, returns the Column Store
completely unchanged, and raises no exception — so `doit` proceeds to the
next line. -/
theorem c2_unknown_or_wrong_count (env : Env) (st : LookSt) (line : String)
    (hne : pyStrip (pyStrip line) ≠ "")
    (hnc : pyStartsHash (pyStrip line) = false)
    (h : isKeyword (rootOf (pyStrip line)) = false ∨
         (∃ n, expectedCount (rootOf (pyStrip line)) = some n ∧
               ¬ checkNArgs (cmdOf line) n)) :
    ∃ w, parse_line env st line = ([w], .ok st) := by
  have hguard : ¬ (pyStartsHash (pyStrip line) = true ∨ pyStrip (pyStrip line) = "") := by
    simp [hnc, hne]
  unfold parse_line
  rw [if_neg hguard]
  rcases h with h | ⟨n, hn, hcnt⟩
  · simp only [isKeyword, Bool.or_eq_false_iff, beq_eq_false_iff_ne, ne_eq] at h
    obtain ⟨⟨⟨⟨⟨⟨⟨⟨⟨⟨⟨h1, h2⟩, h3⟩, h4⟩, h5⟩, h6⟩, h7⟩, h8⟩, h9⟩, h10⟩, h11⟩, h12⟩ := h
    rw [if_neg h1, if_neg h2, if_neg h3, if_neg h4, if_neg h5, if_neg h6, if_neg h7,
        if_neg h8, if_neg h9, if_neg h10, if_neg h11, if_neg h12]
    exact ⟨_, rfl⟩
  · by_cases h1 : rootOf (pyStrip line) = "math"
    · rw [h1] at hn ⊢
      rw [show expectedCount "math" = some 8 from by with_unfolding_all decide] at hn
      cases hn
      simp only [reduceIte]
      exact ⟨_, command_math_badcount st _ hcnt⟩
    · by_cases h2 : rootOf (pyStrip line) = "summation"
      · rw [h2] at hn ⊢
        rw [show expectedCount "summation" = some 5 from by with_unfolding_all decide] at hn
        cases hn
        simp only [reduceIte]
        exact ⟨_, command_summation_badcount st _ hcnt⟩
      · by_cases h3 : rootOf (pyStrip line) = "power"
        · rw [h3] at hn ⊢
          rw [show expectedCount "power" = some 6 from by with_unfolding_all decide] at hn
          cases hn
          simp only [reduceIte]
          exact ⟨_, command_power_badcount st _ hcnt⟩
        · by_cases h4 : rootOf (pyStrip line) = "zero"
          · rw [h4] at hn ⊢
            rw [show expectedCount "zero" = some 3 from by with_unfolding_all decide] at hn
            cases hn
            simp only [reduceIte]
            exact ⟨_, command_zero_badcount st _ hcnt⟩
          · by_cases h5 : rootOf (pyStrip line) = "ec"
            · rw [h5] at hn ⊢
              rw [show expectedCount "ec" = some 9 from by with_unfolding_all decide] at hn
              cases hn
              simp only [reduceIte]
              exact ⟨_, command_ec_badcount st _ hcnt⟩
            · by_cases h6 : rootOf (pyStrip line) = "r_col"
              · rw [h6] at hn ⊢
                rw [show expectedCount "r_col" = some 2 from by with_unfolding_all decide] at hn
                cases hn
                simp only [reduceIte]
                exact ⟨_, command_r_col_badcount st _ hcnt⟩
              · by_cases h7 : rootOf (pyStrip line) = "math_int"
                · rw [h7] at hn ⊢
                  rw [show expectedCount "math_int" = some 10 from by with_unfolding_all decide] at hn
                  cases hn
                  simp only [reduceIte]
                  exact ⟨_, command_math_int_badcount st _ hcnt⟩
                · by_cases h8 : rootOf (pyStrip line) = "offset_int"
                  · rw [h8] at hn ⊢
                    rw [show expectedCount "offset_int" = some 5 from by with_unfolding_all decide] at hn
                    cases hn
                    simp only [reduceIte]
                    exact ⟨_, command_offset_int_badcount st _ hcnt⟩
                  · by_cases h9 : rootOf (pyStrip line) = "r_row"
                    · rw [h9] at hn ⊢
                      rw [show expectedCount "r_row" = some 3 from by with_unfolding_all decide] at hn
                      cases hn
                      simp only [reduceIte]
                      exact ⟨_, command_r_row_badcount st _ hcnt⟩
                    · by_cases h10 : rootOf (pyStrip line) = "read"
                      · rw [h10] at hn ⊢
                        rw [show expectedCount "read" = some 2 from by with_unfolding_all decide] at hn
                        cases hn
                        simp only [reduceIte]
                        exact ⟨_, command_read_badcount env st _ hcnt⟩
                      · exfalso
                        unfold expectedCount at hn
                        rw [if_neg h1, if_neg h2, if_neg h3, if_neg h4, if_neg h5, if_neg h6,
                            if_neg h7, if_neg h8, if_neg h9, if_neg h10] at hn
                        exact Option.noConfusion hn

/-- Witness for C2: the unknown keyword `foo 1 2` and the short `math 1`
line each produce one warning and leave a fresh Column Store untouched. -/
theorem c2_witness :
    (∃ w, parse_line env0 initState "foo 1 2" = ([w], .ok initState)) ∧
    (∃ w, parse_line env0 initState "math 1" = ([w], .ok initState)) :=
  ⟨c2_unknown_or_wrong_count env0 initState "foo 1 2" (by with_unfolding_all decide)
     (by with_unfolding_all decide) (Or.inl (by with_unfolding_all decide)),
   c2_unknown_or_wrong_count env0 initState "math 1" (by with_unfolding_all decide)
     (by with_unfolding_all decide)
     (Or.inr ⟨8, by with_unfolding_all decide, by with_unfolding_all decide⟩)⟩

/-! ## Claim C5 -/

theorem pyBound_natCast (n i : Nat) : pyBound n (i : Int) = min i n := by
  unfold pyBound
  split <;> omega

theorem pySliceL_natCast (l : List α) (f t : Nat) (hf : f ≤ l.length) (ht : t ≤ l.length) :
    pySliceL l (f : Int) (t : Int) = (l.drop f).take (t - f) := by
  simp only [pySliceL, pyBound_natCast, min_eq_left hf, min_eq_left ht]

theorem pySetSliceArr_splice (l vals : List α) (f t : Nat) (hf : f ≤ t) (ht : t ≤ l.length)
    (hlen : vals.length = t - f) :
    pySetSliceArr l (f : Int) (t : Int) vals = .ok (l.take f ++ vals ++ l.drop t) := by
  simp only [pySetSliceArr, pyBound_natCast, min_eq_left (hf.trans ht), min_eq_left ht,
    Nat.max_eq_right hf, if_pos hlen]

theorem splice_get? (l vals : List α) (f t : Nat) (hf : f ≤ t) (ht : t ≤ l.length)
    (hlen : vals.length = t - f) (i : Nat) :
    (l.take f ++ vals ++ l.drop t).get? i =
      if f ≤ i ∧ i < t then vals.get? (i - f) else l.get? i := by
  have hfl : f ≤ l.length := hf.trans ht
  have htake : (l.take f).length = f := by simp [hfl]
  have hlen2 : (l.take f ++ vals).length = t := by
    rw [List.length_append, htake, hlen]
    omega
  by_cases h1 : i < f
  · rw [if_neg (by omega)]
    rw [List.get?_append (by omega), List.get?_append (by omega), List.get?_take h1]
  · by_cases h2 : i < t
    · rw [if_pos ⟨by omega, h2⟩]
      rw [List.get?_append (by omega), List.get?_append_right (by omega), htake]
    · rw [if_neg (by omega)]
      rw [List.get?_append_right (by omega), hlen2, List.get?_drop]
      congr 1
      omega

theorem splice_length (l vals : List α) (f t : Nat) (hf : f ≤ t) (ht : t ≤ l.length)
    (hlen : vals.length = t - f) :
    (l.take f ++ vals ++ l.drop t).length = l.length := by
  simp only [List.length_append, List.length_take, List.length_drop]
  omega

theorem pyIdx_lt (n : Nat) (i : Int) (j : Nat) (h : pyIdx n i = some j) : j < n := by
  simp only [pyIdx] at h
  by_cases hc : 0 ≤ (if i < 0 then i + n else i) ∧ (if i < 0 then i + n else i) < (n : Int)
  · rw [if_pos hc] at h
    cases h
    obtain ⟨hc1, hc2⟩ := hc
    omega
  · rw [if_neg hc] at h
    exact Option.noConfusion h

theorem pySetL_ok_elim (l : List α) (i : Int) (v : α) (l' : List α)
    (h : pySetL l i v = .ok l') : ∃ j, pyIdx l.length i = some j ∧ l' = l.set j v := by
  unfold pySetL at h
  split at h
  · rename_i j hj
    cases h
    exact ⟨j, hj, rfl⟩
  · exact Except.noConfusion h

theorem pyGetL_set_self (l : List α) (i : Int) (j : Nat) (v : α)
    (h : pyIdx l.length i = some j) : pyGetL (l.set j v) i = .ok v := by
  have hj : j < l.length := pyIdx_lt _ _ _ h
  unfold pyGetL
  rw [List.length_set, h]
  dsimp only
  rw [List.get?_set_eq_of_lt v hj]

/-- `setOut` stores the given array at the output slot: reading the slot
back gives that array, and the data lists of other slots are untouched. -/
theorem setOut_spec (st st' : LookSt) (i : Int) (v : PyArr) (nm un : String)
    (h : setOut st i v nm un = .ok st') :
    pyGetL st'.data i = .ok v := by
  unfold setOut at h
  split at h
  · exact Except.noConfusion h
  · rename_i st1 hst1
    split at h
    · exact Except.noConfusion h
    · rename_i nms hnms
      split at h
      · exact Except.noConfusion h
      · rename_i uns huns
        cases h
        unfold setDataI at hst1
        split at hst1
        · exact Except.noConfusion hst1
        · rename_i d hd
          cases hst1
          obtain ⟨j, hj, rfl⟩ := pySetL_ok_elim _ _ _ _ hd
          exact pyGetL_set_self _ _ _ _ hj

/-- C5 counterexample: the claim says `ec` replaces exactly the inclusive
index range `[first, last]`.  With `ec 0 1 2 0 2 1 n u` on a displacement
column `[0,0,0]` (slot 0) and load column `[1,1,1]` (slot 1), the delegated
corrected value at index 2 is `0 - (-1) = 1`, but the array written to slot
2 is `[1, 1, 0]`: index `last = 2` keeps the original displacement value —
only the half-open range `[0, 2)` was replaced. -/
theorem c5_counterexample_inclusive_range :
    ec_apply st5 0 1 2 0 2 1 "n" "u" = .ok st5ec ∧
    pyGetL st5ec.data 2 = .ok [some 1, some 1, some 0] ∧
    elastic_correctionCalc [some 1, some 1, some 1] [some 0, some 0, some 0] [1 / 1, 0]
        = .ok ([some (-1), some (-1), some (-1)], [some 1, some 1, some 1],
               [some 0, some 0, some 0]) ∧
    (List.zipWith (liftOp2 (fun a b => a - b)) [some 0, some 0, some 0]
        [some (-1), some (-1), some (-1)]).get? 2 = some (some 1) ∧
    ¬ (([some 1, some 1, some 0] : PyArr).get? 2 =
       (List.zipWith (liftOp2 (fun a b => a - b)) [some 0, some 0, some 0]
          [some (-1), some (-1), some (-1)]).get? 2) := by
  with_unfolding_all decide

/-- C5 (amended): for a valid `ec` command, the array written to slot
`out_idx` is the displacement column with exactly the half-open index range
`[first, last)` replaced by the corrected values obtained by delegating to
the external elastic-correction transform with linear coefficient `1/slope`
against the load column — `disp - elastic_correction(load, disp,
[1/slope, 0])` pointwise — and every index outside that range passes the
original displacement value through. -/
theorem c5_amended_ec_range (st st' : LookSt) (dispIdx loadIdx outIdx : Int)
    (f t : Nat) (slope0 : Rat) (nm un : String) (load disp : PyArr)
    (hload : getDataI st loadIdx = .ok load)
    (hdisp : getDataI st dispIdx = .ok disp)
    (hlen : load.length = disp.length)
    (hf : f ≤ t) (ht : t ≤ disp.length)
    (h : ec_apply st dispIdx loadIdx outIdx (f : Int) (t : Int) slope0 nm un = .ok st') :
    ∃ ecr outArr,
      elastic_correctionCalc load disp [1 / slope0, 0] = .ok (ecr, load, disp) ∧
      pyGetL st'.data outIdx = .ok outArr ∧
      outArr.length = disp.length ∧
      ∀ i, i < disp.length →
        outArr.get? i = if f ≤ i ∧ i < t
          then (List.zipWith (liftOp2 (fun a b => a - b)) disp ecr).get? i
          else disp.get? i := by
  have hec : elastic_correctionCalc load disp [1 / slope0, 0]
      = .ok (List.zipWith (liftOp2 (fun a b => a - b)) disp
              (load.map (fun x => x.map (polyvalQ [1 / slope0, 0]))), load, disp) := by
    unfold elastic_correctionCalc arrArr
    rw [if_pos (by simp [hlen])]
  unfold ec_apply at h
  split at h
  · exact Except.noConfusion h
  · rename_i slope hslope
    have hslope' : slope = 1 / slope0 := by
      split at hslope
      · exact Except.noConfusion hslope
      · cases hslope
        rfl
    subst hslope'
    rw [hload, hdisp] at h
    dsimp only at h
    set ecr := List.zipWith (liftOp2 (fun a b => a - b)) disp
      (load.map (fun x => x.map (polyvalQ [1 / slope0, 0]))) with hecr
    have hecr_len : ecr.length = disp.length := by
      simp [hecr, hlen]
    rw [hec] at h
    dsimp only at h
    have hcorr : arrArr (fun a b => a - b) disp ecr
        = .ok (List.zipWith (liftOp2 (fun a b => a - b)) disp ecr) := by
      unfold arrArr
      rw [if_pos hecr_len.symm]
    rw [hcorr] at h
    dsimp only at h
    set corr := List.zipWith (liftOp2 (fun a b => a - b)) disp ecr with hcorrd
    have hcorr_len : corr.length = disp.length := by
      simp [hcorrd, hecr_len]
    have hslice : pySliceL corr (f : Int) (t : Int) = (corr.drop f).take (t - f) :=
      pySliceL_natCast _ _ _ (by omega) (by omega)
    have hslice_len : ((corr.drop f).take (t - f)).length = t - f := by
      simp [hcorr_len]
      omega
    have hsplice := pySetSliceArr_splice disp ((corr.drop f).take (t - f)) f t hf ht hslice_len
    rw [hslice, hsplice] at h
    dsimp only at h
    refine ⟨ecr, disp.take f ++ (corr.drop f).take (t - f) ++ disp.drop t,
      hec, setOut_spec _ _ _ _ _ _ h, splice_length _ _ _ _ hf ht hslice_len, ?_⟩
    intro i hi
    rw [splice_get? disp _ f t hf ht hslice_len i]
    by_cases hin : f ≤ i ∧ i < t
    · rw [if_pos hin, if_pos hin]
      rw [List.get?_take (by omega), List.get?_drop]
      congr 1
      omega
    · rw [if_neg hin, if_neg hin]

/-- Witness for the amended C5 theorem at the concrete `ec 0 1 2 0 2 1 n u`
command on `st5`. -/
theorem c5_amended_witness :
    ∃ ecr outArr,
      elastic_correctionCalc [some 1, some 1, some 1] [some 0, some 0, some 0] [1 / 1, 0]
          = .ok (ecr, [some 1, some 1, some 1], [some 0, some 0, some 0]) ∧
      pyGetL st5ec.data 2 = .ok outArr ∧
      outArr.length = ([some 0, some 0, some 0] : PyArr).length ∧
      ∀ i, i < ([some 0, some 0, some 0] : PyArr).length →
        outArr.get? i = if 0 ≤ i ∧ i < 2
          then (List.zipWith (liftOp2 (fun a b => a - b))
                  [some 0, some 0, some 0] ecr).get? i
          else ([some 0, some 0, some 0] : PyArr).get? i :=
  c5_amended_ec_range st5 st5ec 0 1 2 0 2 1 "n" "u"
    [some 1, some 1, some 1] [some 0, some 0, some 0]
    (by with_unfolding_all decide) (by with_unfolding_all decide)
    (by with_unfolding_all decide) (by omega) (by with_unfolding_all decide)
    (by with_unfolding_all decide)

/-! ## Claim C9 -/

theorem pyIdx_natCast (n i : Nat) (h : i < n) : pyIdx n (i : Int) = some i := by
  simp only [pyIdx]
  have hin : (if (i : Int) < 0 then (i : Int) + n else (i : Int)) = (i : Int) :=
    if_neg (by omega)
  rw [hin, if_pos ⟨by omega, by omega⟩]
  simp

theorem pyGetL_natCast (l : List α) (i : Nat) (x : α) (hi : i < l.length)
    (hx : l.get? i = some x) : pyGetL l (i : Int) = .ok x := by
  unfold pyGetL
  rw [pyIdx_natCast _ _ hi]
  dsimp only
  rw [hx]

theorem pyBound_zero (n : Nat) : pyBound n 0 = 0 := by
  unfold pyBound
  split <;> omega

theorem get?_replicate (v : α) : ∀ (n j : Nat),
    (List.replicate n v).get? j = if j < n then some v else none := by
  intro n
  induction n with
  | zero => intro j; simp
  | succ n ih =>
    intro j
    cases j with
    | zero => simp [List.replicate]
    | succ j =>
      rw [List.replicate_succ, List.get?_cons_succ, ih j]
      by_cases h : j < n
      · rw [if_pos h, if_pos (by omega)]
      · rw [if_neg h, if_neg (by omega)]

theorem pySetSliceFill_prefix_get? (l : List α) (i : Nat) (hi : i ≤ l.length) (v : α)
    (j : Nat) :
    (pySetSliceFill l 0 (i : Int) v).get? j = if j < i then some v else l.get? j := by
  simp only [pySetSliceFill, pyBound_zero, pyBound_natCast, min_eq_left hi,
    Nat.max_eq_right (Nat.zero_le i), Nat.sub_zero, List.take_zero, List.nil_append]
  by_cases h1 : j < i
  · rw [if_pos h1, List.get?_append (by simp; omega), get?_replicate, if_pos h1]
  · rw [if_neg h1, List.get?_append_right (by simp; omega), List.length_replicate,
      List.get?_drop]
    congr 1
    omega

theorem pySetSliceFill_suffix_get? (l : List α) (i : Nat) (hi : i ≤ l.length) (v : α)
    (j : Nat) :
    (pySetSliceFill l (i : Int) (l.length : Int) v).get? j =
      if i ≤ j ∧ j < l.length then some v else l.get? j := by
  simp only [pySetSliceFill, pyBound_natCast, min_eq_left hi, min_self,
    Nat.max_eq_right hi, List.drop_length, List.append_nil]
  have htake : (l.take i).length = i := by simp [hi]
  by_cases h1 : j < i
  · rw [if_neg (by omega), List.get?_append (by omega), List.get?_take h1]
  · by_cases h2 : j < l.length
    · rw [if_pos ⟨by omega, h2⟩, List.get?_append_right (by omega), htake,
        get?_replicate, if_pos (by omega)]
    · rw [if_neg (by omega)]
      have hlen : (l.take i ++ List.replicate (l.length - i) v).length = l.length := by
        simp [htake, hi]
      rw [List.get?_eq_none.mpr (by omega), List.get?_eq_none.mpr (by omega)]

theorem arrScalar_map_some (f : Rat → Rat → Rat) (a : List Rat) (z : Rat) :
    arrScalar f (a.map some) (some z) = a.map (fun x => some (f x z)) := by
  unfold arrScalar
  rw [List.map_map]
  rfl

theorem zeroRebound_zero (a : PyArr) (zv : Cell) :
    zeroRebound a zv 0 = ⟨arrScalar (fun x y => x - y) a zv, a, false⟩ := by
  unfold zeroRebound
  rw [if_neg (by simp)]
  rfl

theorem zeroBefore_skip (i : Int) (mode : String) (r : PyRef) (h : ¬ mode = "before") :
    zeroBefore i mode r = .ok r := by
  unfold zeroBefore
  rw [if_neg h]

theorem zeroAfter_skip (i : Int) (mode : String) (r : PyRef) (h : ¬ mode = "after") :
    zeroAfter i mode r = .ok r := by
  unfold zeroAfter
  rw [if_neg h]

theorem zeroCalc_window_zero (a : PyArr) (i : Int) (v : Rat) (mode : String) :
    zeroCalc a i 0 v mode =
      (match pyGetL a i with
       | .error e => .error e
       | .ok zero_value =>
         match zeroBefore i mode (zeroRebound a zero_value v) with
         | .error e => .error e
         | .ok r3 =>
           match zeroAfter i mode r3 with
           | .error e => .error e
           | .ok r4 => .ok (r4.here, r4.caller)) := by
  unfold zeroCalc
  rw [if_neg (by simp)]

theorem zeroCalc_at_eval (a : List Rat) (i : Nat) (hi : i < a.length) :
    zeroCalc (a.map some) (i : Int) 0 0 "at"
      = .ok (a.map (fun x => some (x - a.get ⟨i, hi⟩)), a.map some) := by
  have hget : pyGetL (a.map some) (i : Int) = .ok (some (a.get ⟨i, hi⟩)) :=
    pyGetL_natCast _ _ _ (by simpa using hi)
      (by rw [List.get?_map, List.get?_eq_get hi]; rfl)
  rw [zeroCalc_window_zero, hget]
  dsimp only
  rw [zeroRebound_zero, zeroBefore_skip _ _ _ (by decide)]
  dsimp only
  rw [zeroAfter_skip _ _ _ (by decide)]
  dsimp only
  rw [arrScalar_map_some]

theorem zeroCalc_before_eval (a : List Rat) (i : Nat) (hi : i < a.length) :
    zeroCalc (a.map some) (i : Int) 0 0 "before"
      = .ok (pySetSliceFill (a.map (fun x => some (x - a.get ⟨i, hi⟩))) 0 (i : Int)
               (some (a.get ⟨i, hi⟩ - a.get ⟨i, hi⟩)), a.map some) := by
  have hget : pyGetL (a.map some) (i : Int) = .ok (some (a.get ⟨i, hi⟩)) :=
    pyGetL_natCast _ _ _ (by simpa using hi)
      (by rw [List.get?_map, List.get?_eq_get hi]; rfl)
  have hget2 : pyGetL (a.map fun x => some (x - a.get ⟨i, hi⟩)) (i : Int)
      = .ok (some (a.get ⟨i, hi⟩ - a.get ⟨i, hi⟩)) :=
    pyGetL_natCast _ _ _ (by simpa using hi)
      (by rw [List.get?_map, List.get?_eq_get hi]; rfl)
  rw [zeroCalc_window_zero, hget]
  dsimp only
  rw [zeroRebound_zero]
  unfold zeroBefore
  rw [if_pos rfl]
  rw [show arrScalar (fun x y => x - y) (a.map some) (some (a.get ⟨i, hi⟩))
      = a.map (fun x => some (x - a.get ⟨i, hi⟩)) from arrScalar_map_some _ _ _]
  rw [hget2]
  dsimp only
  rw [zeroAfter_skip _ _ _ (by decide)]
  dsimp only
  rw [show (PyRef.mutate ⟨a.map fun x => some (x - a.get ⟨i, hi⟩), a.map some, false⟩
      (fun d => pySetSliceFill d 0 (i : Int) (some (a.get ⟨i, hi⟩ - a.get ⟨i, hi⟩))))
      = ⟨pySetSliceFill (a.map fun x => some (x - a.get ⟨i, hi⟩)) 0 (i : Int)
           (some (a.get ⟨i, hi⟩ - a.get ⟨i, hi⟩)), a.map some, false⟩ from by
    simp [PyRef.mutate]]

theorem zeroCalc_after_eval (a : List Rat) (i : Nat) (hi : i < a.length) :
    zeroCalc (a.map some) (i : Int) 0 0 "after"
      = .ok (pySetSliceFill (a.map (fun x => some (x - a.get ⟨i, hi⟩))) (i : Int)
               ((a.map (fun x => some (x - a.get ⟨i, hi⟩))).length : Int)
               (some (a.get ⟨i, hi⟩ - a.get ⟨i, hi⟩)), a.map some) := by
  have hget : pyGetL (a.map some) (i : Int) = .ok (some (a.get ⟨i, hi⟩)) :=
    pyGetL_natCast _ _ _ (by simpa using hi)
      (by rw [List.get?_map, List.get?_eq_get hi]; rfl)
  have hget2 : pyGetL (a.map fun x => some (x - a.get ⟨i, hi⟩)) (i : Int)
      = .ok (some (a.get ⟨i, hi⟩ - a.get ⟨i, hi⟩)) :=
    pyGetL_natCast _ _ _ (by simpa using hi)
      (by rw [List.get?_map, List.get?_eq_get hi]; rfl)
  rw [zeroCalc_window_zero, hget]
  dsimp only
  rw [zeroRebound_zero, zeroBefore_skip _ _ _ (by decide)]
  dsimp only
  unfold zeroAfter
  rw [if_pos rfl]
  rw [show arrScalar (fun x y => x - y) (a.map some) (some (a.get ⟨i, hi⟩))
      = a.map (fun x => some (x - a.get ⟨i, hi⟩)) from arrScalar_map_some _ _ _]
  rw [hget2]
  dsimp only
  rw [show (PyRef.mutate ⟨a.map fun x => some (x - a.get ⟨i, hi⟩), a.map some, false⟩
      (fun d => pySetSliceFill d (i : Int) (d.length : Int)
        (some (a.get ⟨i, hi⟩ - a.get ⟨i, hi⟩))))
      = ⟨pySetSliceFill (a.map fun x => some (x - a.get ⟨i, hi⟩)) (i : Int)
           ((a.map (fun x => some (x - a.get ⟨i, hi⟩))).length : Int)
           (some (a.get ⟨i, hi⟩ - a.get ⟨i, hi⟩)), a.map some, false⟩ from by
    simp [PyRef.mutate]]

/-- C9: with default window, value, and mode, `zero(a, i)` returns
`a - a[i]` element-wise; with `mode='before'` every index `< i` of the
result equals the zero-adjusted value at index `i` (which is
`a[i] - a[i]`); with `mode='after'` every index `>= i` equals that same
value; and a valid `zero col rec` command replaces the column at `col` with
exactly this default zeroing of it, leaving every name and unit list of
the Column Store untouched. -/
theorem c9_zero_and_command :
    (∀ (a : List Rat) (i : Nat) (hi : i < a.length),
       zeroCalc (a.map some) (i : Int) 0 0 "at"
         = .ok (a.map (fun x => some (x - a.get ⟨i, hi⟩)), a.map some)) ∧
    (∀ (a : List Rat) (i : Nat) (hi : i < a.length) (r ca : PyArr),
       zeroCalc (a.map some) (i : Int) 0 0 "before" = .ok (r, ca) →
       (∀ j, j < i → r.get? j = r.get? i) ∧
       r.get? i = some (some (a.get ⟨i, hi⟩ - a.get ⟨i, hi⟩))) ∧
    (∀ (a : List Rat) (i : Nat) (hi : i < a.length) (r ca : PyArr),
       zeroCalc (a.map some) (i : Int) 0 0 "after" = .ok (r, ca) →
       ∀ j, i ≤ j → j < a.length →
         r.get? j = some (some (a.get ⟨i, hi⟩ - a.get ⟨i, hi⟩))) ∧
    (∀ (st : LookSt) (col rec : Int) (d r ca : PyArr) (d' : List PyArr),
       getDataI st col = .ok d →
       zeroCalc d rec 0 0 "at" = .ok (r, ca) →
       pySetL st.data col r = .ok d' →
       zero_apply st col rec = .ok ⟨d', st.data_units, st.data_names⟩) := by
  refine ⟨zeroCalc_at_eval, ?_, ?_, ?_⟩
  · intro a i hi r ca hz
    rw [zeroCalc_before_eval a i hi] at hz
    cases hz
    have hmlen : i ≤ (a.map (fun x => some (x - a.get ⟨i, hi⟩))).length := by
      simp
      omega
    constructor
    · intro j hj
      rw [pySetSliceFill_prefix_get? _ _ hmlen _ j, pySetSliceFill_prefix_get? _ _ hmlen _ i,
        if_pos hj, if_neg (by omega)]
      rw [List.get?_map, List.get?_eq_get hi]
      rfl
    · rw [pySetSliceFill_prefix_get? _ _ hmlen _ i, if_neg (by omega)]
      rw [List.get?_map, List.get?_eq_get hi]
      rfl
  · intro a i hi r ca hz
    rw [zeroCalc_after_eval a i hi] at hz
    cases hz
    intro j hij hjl
    have hmlen : i ≤ (a.map (fun x => some (x - a.get ⟨i, hi⟩))).length := by
      simp
      omega
    rw [pySetSliceFill_suffix_get? _ _ hmlen _ j, if_pos ⟨hij, by simpa using hjl⟩]
  · intro st col rec d r ca d' hd hz hset
    unfold zero_apply
    rw [hd]
    dsimp only
    rw [hz]
    dsimp only
    unfold setDataI
    rw [hset]

/-- Witness for C9 at `a = [1, 2, 4]`, `i = 1`, and the command
`zero 0 1` on a store whose slot 0 holds `[1, 2, 4]`. -/
theorem c9_witness :
    zeroCalc [some 1, some 2, some 4] (1 : Nat) 0 0 "at"
      = .ok ([some (-1), some 0, some 2], [some 1, some 2, some 4]) ∧
    zero_apply
      ⟨(List.replicate 32 ([] : PyArr)).set 0 [some 1, some 2, some 4],
       List.replicate 32 none, List.replicate 32 none⟩ 0 1
      = .ok ⟨((List.replicate 32 ([] : PyArr)).set 0 [some 1, some 2, some 4]).set 0
               [some (-1), some 0, some 2],
             List.replicate 32 none, List.replicate 32 none⟩ :=
  ⟨by
    have h := c9_zero_and_command.1 [1, 2, 4] 1 (by decide)
    norm_num at h
    exact h,
   c9_zero_and_command.2.2.2
     ⟨(List.replicate 32 ([] : PyArr)).set 0 [some 1, some 2, some 4],
      List.replicate 32 none, List.replicate 32 none⟩ 0 1
     [some 1, some 2, some 4] [some (-1), some 0, some 2] [some 1, some 2, some 4]
     (((List.replicate 32 ([] : PyArr)).set 0 [some 1, some 2, some 4]).set 0
        [some (-1), some 0, some 2])
     (by with_unfolding_all decide) (by with_unfolding_all decide)
     (by with_unfolding_all decide)⟩

/-! ## Claim C6 -/

theorem chunk8_length (bs : List Nat) : ∀ k, (chunk8 k bs).length = k := by
  intro k
  induction k generalizing bs with
  | zero => rfl
  | succ k ih => simp [chunk8, ih]

/-- The inner data-read loop for one column reads exactly the column's own
header element count of values. -/
theorem readOneCol_length (endian : String) (numRecs nelem : Int) (bs : List Nat)
    (v : PyArr) (rest : List Nat) (h : readOneCol endian numRecs nelem bs = .ok (v, rest)) :
    v.length = nelem.toNat := by
  unfold readOneCol at h
  split at h
  · split at h
    · exact Except.noConfusion h
    · split at h
      · exact Except.noConfusion h
      · cases h
        simp [chunk8_length]
  · split at h
    · split at h
      · exact Except.noConfusion h
      · split at h
        · exact Except.noConfusion h
        · cases h
          simp [chunk8_length]
    · cases h
      simp

/-- The inner data-read loop does not depend on the global record count,
as long as the replacement record count also passes the numpy row-bound
check. -/
theorem readOneCol_indep (endian : String) (numRecs numRecs2 nelem : Int) (bs : List Nat)
    (v : PyArr) (rest : List Nat)
    (h : readOneCol endian numRecs nelem bs = .ok (v, rest))
    (h2 : (nelem.toNat : Int) ≤ numRecs2) :
    readOneCol endian numRecs2 nelem bs = .ok (v, rest) := by
  unfold readOneCol at h ⊢
  by_cases he1 : endian = "little"
  · rw [if_pos he1] at h ⊢
    split at h
    · exact Except.noConfusion h
    · rw [if_neg (by omega)]
      exact h
  · rw [if_neg he1] at h ⊢
    by_cases he2 : endian = "big"
    · rw [if_pos he2] at h ⊢
      split at h
      · exact Except.noConfusion h
      · rw [if_neg (by omega)]
        exact h
    · rw [if_neg he2] at h ⊢
      exact h

theorem readCols_ok_spec (endian : String) (numRecs : Int) (colRecs : List Int) :
    ∀ (n colIdx : Nat) (bs : List Nat) (cols : List PyArr) (rest : List Nat),
    readCols endian numRecs colRecs colIdx n bs = .ok (cols, rest) →
    cols.length = n ∧
    ∀ c, c < n → ∃ ne v, colRecs.get? (colIdx + c) = some ne ∧ cols.get? c = some v ∧
      v.length = ne.toNat := by
  intro n
  induction n with
  | zero =>
    intro colIdx bs cols rest h
    unfold readCols at h
    cases h
    exact ⟨rfl, fun c hc => absurd hc (by omega)⟩
  | succ n ih =>
    intro colIdx bs cols rest h
    unfold readCols at h
    rcases hnelem : colRecs.get? colIdx with - | nelem
    · rw [hnelem] at h
      exact Except.noConfusion h
    · rw [hnelem] at h
      dsimp only at h
      rcases hone : readOneCol endian numRecs nelem bs with e | ⟨vals, bs1⟩
      · rw [hone] at h
        exact Except.noConfusion h
      · rw [hone] at h
        dsimp only at h
        rcases hrec : readCols endian numRecs colRecs (colIdx + 1) n bs1 with e | ⟨rest2, bs2⟩
        · rw [hrec] at h
          exact Except.noConfusion h
        · rw [hrec] at h
          dsimp only at h
          cases h
          obtain ⟨hlen, hspec⟩ := ih (colIdx + 1) bs1 _ _ hrec
          refine ⟨by simp [hlen], ?_⟩
          intro c hc
          cases c with
          | zero =>
            exact ⟨nelem, vals, by simpa using hnelem, rfl,
              readOneCol_length _ _ _ _ _ _ hone⟩
          | succ c =>
            obtain ⟨ne, v, h1, h2, h3⟩ := hspec c (by omega)
            refine ⟨ne, v, ?_, by simpa using h2, h3⟩
            rw [show colIdx + (c + 1) = colIdx + 1 + c from by omega]
            exact h1

theorem readCols_indep (endian : String) (numRecs numRecs2 : Int) (colRecs : List Int) :
    ∀ (n colIdx : Nat) (bs : List Nat) (cols : List PyArr) (rest : List Nat),
    readCols endian numRecs colRecs colIdx n bs = .ok (cols, rest) →
    (∀ c, c < n → ∀ ne, colRecs.get? (colIdx + c) = some ne → (ne.toNat : Int) ≤ numRecs2) →
    readCols endian numRecs2 colRecs colIdx n bs = .ok (cols, rest) := by
  intro n
  induction n with
  | zero =>
    intro colIdx bs cols rest h hb
    exact h
  | succ n ih =>
    intro colIdx bs cols rest h hb
    unfold readCols at h ⊢
    rcases hnelem : colRecs.get? colIdx with - | nelem
    · rw [hnelem] at h
      exact Except.noConfusion h
    · rw [hnelem] at h
      dsimp only at h ⊢
      rcases hone : readOneCol endian numRecs nelem bs with e | ⟨vals, bs1⟩
      · rw [hone] at h
        exact Except.noConfusion h
      · rw [hone] at h
        dsimp only at h
        rw [readOneCol_indep endian numRecs numRecs2 nelem bs vals bs1 hone
          (hb 0 (by omega) nelem (by simpa using hnelem))]
        dsimp only
        rcases hrec : readCols endian numRecs colRecs (colIdx + 1) n bs1 with e | ⟨rest2, bs2⟩
        · rw [hrec] at h
          exact Except.noConfusion h
        · rw [hrec] at h
          dsimp only at h
          cases h
          rw [ih (colIdx + 1) bs1 _ _ hrec]
          intro c hc ne hne
          refine hb (c + 1) (by omega) ne ?_
          rw [show colIdx + (c + 1) = colIdx + 1 + c from by omega]
          exact hne

/-- C6: in a successful run of the data-section read loop (the loop
`read_binary` runs over the file's data section), the values read for
column position `c` number exactly the header-provided element count
`col_recs[c]` of the `c`-th active column — and the global record count
bounds no column's inner read loop: any record count that also passes the
numpy row-bound check yields the identical columns and leftover stream. -/
theorem c6_data_loop_bounds (endian : String) (numRecs : Int) (colRecs : List Int)
    (numCols : Nat) (bs : List Nat) (cols : List PyArr) (rest : List Nat)
    (h : readCols endian numRecs colRecs 0 numCols bs = .ok (cols, rest)) :
    (∀ c, c < numCols → ∃ ne v, colRecs.get? c = some ne ∧ cols.get? c = some v ∧
       v.length = ne.toNat) ∧
    (∀ numRecs2 : Int,
       (∀ c, c < numCols → ∀ ne, colRecs.get? c = some ne → (ne.toNat : Int) ≤ numRecs2) →
       readCols endian numRecs2 colRecs 0 numCols bs = .ok (cols, rest)) := by
  have hs := readCols_ok_spec endian numRecs colRecs numCols 0 bs cols rest h
  refine ⟨fun c hc => by simpa using hs.2 c hc, fun nr2 hb => ?_⟩
  refine readCols_indep endian numRecs nr2 colRecs numCols 0 bs cols rest h ?_
  intro c hc ne hne
  exact hb c hc ne (by simpa using hne)

/-- Witness for C6: two columns with element counts 2 and 1 read exactly
three 8-byte groups; replacing the record count 5 by 99 leaves the result
unchanged. -/
theorem c6_witness :
    readCols "little" 99 [2, 1] 0 2 (List.replicate 24 0)
      = .ok ([[some 0, some 0], [some 0]], []) :=
  (c6_data_loop_bounds "little" 5 [2, 1] 2 (List.replicate 24 0)
      [[some 0, some 0], [some 0]] [] (by with_unfolding_all decide)).2 99
    (by with_unfolding_all decide)

/-! ## Claim C3 -/

theorem pyIdx_natCast_elim (n i j : Nat) (h : pyIdx n (i : Int) = some j) :
    j = i ∧ i < n := by
  simp only [pyIdx] at h
  rw [show (if (i : Int) < 0 then (i : Int) + n else (i : Int)) = (i : Int) from
    if_neg (by omega)] at h
  split at h
  · rename_i hc
    cases h
    refine ⟨by simp, by omega⟩
  · exact Option.noConfusion h

theorem pySetL_natCast_elim (l : List α) (i : Nat) (v : α) (l' : List α)
    (h : pySetL l (i : Int) v = .ok l') : i < l.length ∧ l' = l.set i v := by
  obtain ⟨j, hj, rfl⟩ := pySetL_ok_elim _ _ _ _ h
  obtain ⟨hji, hlt⟩ := pyIdx_natCast_elim _ _ _ hj
  subst hji
  exact ⟨hlt, rfl⟩

theorem dictInsert_fresh (d : List (String × α)) (k : String) (v : α)
    (h : ∀ p ∈ d, p.1 ≠ k) : dictInsert d k v = d ++ [(k, v)] := by
  unfold dictInsert
  rw [if_neg]
  simp only [List.any_eq_true, decide_eq_true_eq, not_exists]
  intro p
  rw [not_and]
  exact h p

/-- The slot-filling loop of `command_read` stores entry `k` of the data
dict at slot `i + k` (values, name, unit) and leaves every other slot of
the Column Store untouched. -/
theorem readLoop_spec : ∀ (entries : List (String × PyArr × String)) (i : Nat)
    (st st' : LookSt), readLoop entries i st = .ok st' →
    (∀ k, k < entries.length → ∃ e, entries.get? k = some e ∧
        st'.data.get? (i + k) = some e.2.1 ∧
        st'.data_names.get? (i + k) = some (some e.1) ∧
        st'.data_units.get? (i + k) = some (some e.2.2)) ∧
    (∀ j, j < i ∨ i + entries.length ≤ j →
        st'.data.get? j = st.data.get? j ∧
        st'.data_names.get? j = st.data_names.get? j ∧
        st'.data_units.get? j = st.data_units.get? j) := by
  intro entries
  induction entries with
  | nil =>
    intro i st st' h
    unfold readLoop at h
    cases h
    exact ⟨fun k hk => absurd (by simpa using hk) (Nat.not_lt_zero k),
      fun j hj => ⟨rfl, rfl, rfl⟩⟩
  | cons e rest ih =>
    intro i st st' h
    obtain ⟨name, v, u⟩ := e
    unfold readLoop at h
    rcases hset : setDataI st (i : Int) v with er | st1
    · rw [hset] at h
      exact Except.noConfusion h
    · rw [hset] at h
      dsimp only at h
      rcases hnms : pySetL st1.data_names (i : Int) (some name) with er | nms
      · rw [hnms] at h
        exact Except.noConfusion h
      · rw [hnms] at h
        dsimp only at h
        rcases huns : pySetL st1.data_units (i : Int) (some u) with er | uns
        · rw [huns] at h
          exact Except.noConfusion h
        · rw [huns] at h
          dsimp only at h
          obtain ⟨hfirst, hrest⟩ := ih (i + 1) ⟨st1.data, uns, nms⟩ st' h
          unfold setDataI at hset
          rcases hsd : pySetL st.data (i : Int) v with er | d1
          · rw [hsd] at hset
            exact Except.noConfusion hset
          · rw [hsd] at hset
            dsimp only at hset
            cases hset
            obtain ⟨hdlt, rfl⟩ := pySetL_natCast_elim _ _ _ _ hsd
            obtain ⟨hnlt, rfl⟩ := pySetL_natCast_elim _ _ _ _ hnms
            obtain ⟨hult, rfl⟩ := pySetL_natCast_elim _ _ _ _ huns
            constructor
            · intro k hk
              cases k with
              | zero =>
                refine ⟨(name, v, u), rfl, ?_, ?_, ?_⟩
                · have hq := (hrest i (by omega)).1
                  rw [Nat.add_zero, hq]
                  dsimp only
                  rw [List.get?_set_eq_of_lt _ hdlt]
                · have hq := (hrest i (by omega)).2.1
                  rw [Nat.add_zero, hq]
                  dsimp only
                  rw [List.get?_set_eq_of_lt _ hnlt]
                · have hq := (hrest i (by omega)).2.2
                  rw [Nat.add_zero, hq]
                  dsimp only
                  rw [List.get?_set_eq_of_lt _ hult]
              | succ k =>
                obtain ⟨e2, he2, h1, h2, h3⟩ := hfirst k (by simpa using hk)
                refine ⟨e2, by simpa using he2, ?_, ?_, ?_⟩
                · rw [show i + (k + 1) = i + 1 + k from by omega]
                  exact h1
                · rw [show i + (k + 1) = i + 1 + k from by omega]
                  exact h2
                · rw [show i + (k + 1) = i + 1 + k from by omega]
                  exact h3
            · intro j hj
              have hlc : ((name, v, u) :: rest).length = rest.length + 1 := by simp
              have hne : i ≠ j := by
                rcases hj with hj | hj
                · omega
                · omega
              obtain ⟨g1, g2, g3⟩ := hrest j (by
                rcases hj with hj | hj
                · exact Or.inl (by omega)
                · exact Or.inr (by omega))
              refine ⟨?_, ?_, ?_⟩
              · rw [g1, List.get?_set_ne _ _ hne]
              · rw [g2]
                dsimp only
                rw [List.get?_set_ne _ _ hne]
              · rw [g3]
                dsimp only
                rw [List.get?_set_ne _ _ hne]

/-- The dict-building loop of `read_binary` appends, for each active column
in order, one entry (name, extracted column, resolved unit string) after the
accumulator — provided the names are fresh, which the claim's hypotheses
guarantee. -/
theorem buildDict_spec (res : String → Option String) (policy : String) (cols : List PyArr)
    (numRecs : Nat) :
    ∀ (actives : List (String × Int × String)) (i : Nat)
      (acc d : List (String × PyArr × String)) (w : List String),
    buildDict res policy cols numRecs actives i acc = (w, .ok d) →
    (∀ p ∈ acc, ∀ a ∈ actives, p.1 ≠ a.1) →
    (actives.map (fun a => a.1)).Nodup →
    d.length = acc.length + actives.length ∧
    (∀ k, k < acc.length → d.get? k = acc.get? k) ∧
    (∀ k, k < actives.length → ∃ a v, actives.get? k = some a ∧
       extractColumn cols numRecs (i + k) = .ok v ∧
       d.get? (acc.length + k) = some (a.1, v, resolvedUnit res a.2.2)) := by
  intro actives
  induction actives with
  | nil =>
    intro i acc d w h hfresh hnodup
    unfold buildDict at h
    injection h with h1 h2
    cases h2
    exact ⟨by simp, fun k hk => rfl,
      fun k hk => absurd (by simpa using hk) (Nat.not_lt_zero k)⟩
  | cons a rest ih =>
    intro i acc d w h hfresh hnodup
    obtain ⟨name, ne, unit⟩ := a
    have hfreshhead : ∀ p ∈ acc, p.1 ≠ name :=
      fun p hp => hfresh p hp (name, ne, unit) (by simp)
    have hnodup' : (rest.map (fun a => a.1)).Nodup := by
      simpa using hnodup.of_cons
    unfold buildDict at h
    rcases hres : res unit with - | u
    · rw [hres] at h
      by_cases hpol : policy = "ignore"
      · rw [if_pos hpol] at h
        rcases hext : extractColumn cols numRecs i with er | v
        · rw [hext] at h
          injection h with h1 h2
          exact absurd h2.symm (by simp)
        · rw [hext] at h
          dsimp only at h
          rcases hbd : buildDict res policy cols numRecs rest (i + 1)
              (dictInsert acc name (v, "dimensionless")) with ⟨w2, r2⟩
          rw [hbd] at h
          dsimp only at h
          injection h with h1 h2
          subst h2
          rw [dictInsert_fresh _ _ _ hfreshhead] at hbd
          obtain ⟨hlen, hpre, hspec⟩ := ih (i + 1) _ d w2 hbd
            (by
              intro p hp b hb
              rcases List.mem_append.mp hp with hp | hp
              · exact hfresh p hp b (by simp [hb])
              · have hpe : p = (name, (v, "dimensionless")) := by simpa using hp
                subst hpe
                have hnm : name ∉ rest.map (fun a => a.1) := by
                  have h2 := hnodup
                  simp only [List.map_cons] at h2
                  exact h2.not_mem
                intro hc
                refine hnm ?_
                rw [show name = b.1 from by simpa using hc]
                exact List.mem_map_of_mem _ hb)
            hnodup'
          refine ⟨by simp at hlen ⊢; omega, ?_, ?_⟩
          · intro k hk
            rw [hpre k (by simp; omega), List.get?_append (by simpa using hk)]
          · intro k hk
            cases k with
            | zero =>
              refine ⟨(name, ne, unit), v, rfl, by simpa using hext, ?_⟩
              have hd := hpre acc.length (by simp)
              rw [Nat.add_zero, hd, List.get?_append_right (by omega)]
              simp [resolvedUnit, hres]
            | succ k =>
              obtain ⟨b, v2, hb1, hb2, hb3⟩ := hspec k (by simpa using hk)
              refine ⟨b, v2, by simpa using hb1, ?_, ?_⟩
              · rw [show i + (k + 1) = i + 1 + k from by omega]
                exact hb2
              · rw [show acc.length + (k + 1) = (acc ++ [(name, (v, "dimensionless"))]).length + k
                  from by simp; omega]
                exact hb3
      · rw [if_neg hpol] at h
        injection h with h1 h2
        exact absurd h2.symm (by simp)
    · rw [hres] at h
      rcases hext : extractColumn cols numRecs i with er | v
      · rw [hext] at h
        injection h with h1 h2
        exact absurd h2.symm (by simp)
      · rw [hext] at h
        dsimp only at h
        rw [dictInsert_fresh _ _ _ hfreshhead] at h
        obtain ⟨hlen, hpre, hspec⟩ := ih (i + 1) _ d w h
          (by
            intro p hp b hb
            rcases List.mem_append.mp hp with hp | hp
            · exact hfresh p hp b (by simp [hb])
            · have hpe : p = (name, (v, u)) := by simpa using hp
              subst hpe
              have hnm : name ∉ rest.map (fun a => a.1) := by
                have h2 := hnodup
                simp only [List.map_cons] at h2
                exact h2.not_mem
              intro hc
              refine hnm ?_
              rw [show name = b.1 from by simpa using hc]
              exact List.mem_map_of_mem _ hb)
          hnodup'
        refine ⟨by simp at hlen ⊢; omega, ?_, ?_⟩
        · intro k hk
          rw [hpre k (by simp; omega), List.get?_append (by simpa using hk)]
        · intro k hk
          cases k with
          | zero =>
            refine ⟨(name, ne, unit), v, rfl, by simpa using hext, ?_⟩
            have hd := hpre acc.length (by simp)
            rw [Nat.add_zero, hd, List.get?_append_right (by omega)]
            simp [resolvedUnit, hres]
          | succ k =>
            obtain ⟨b, v2, hb1, hb2, hb3⟩ := hspec k (by simpa using hk)
            refine ⟨b, v2, by simpa using hb1, ?_, ?_⟩
            · rw [show i + (k + 1) = i + 1 + k from by omega]
              exact hb2
            · rw [show acc.length + (k + 1) = (acc ++ [(name, (v, u))]).length + k
                from by simp; omega]
              exact hb3

/-- C3 (amended): the data dict a successful decode returns holds the
synthetic `rec_num` column (0, 1, ..., record count - 1, dimensionless)
FIRST, followed by exactly the active columns in header order, each entry
carrying the column's read values, its name, and the canonical rendering of
its resolved unit string; consequently `read` fills slot 0 with `rec_num`
and slot `i + 1` with the `i`-th active column of the file, leaving slots
past the dict untouched.  Hypotheses: the decode pipeline stages succeed,
every active column's element count equals the record count, and the active
names are distinct and distinct from `rec_num` (dict keys collide
otherwise). -/
theorem c3_amended_read_layout
    (env : Env) (bytes : List Nat) (th : TopHeader) (bs1 bs2 bs3 : List Nat)
    (actives : List (String × Int × String)) (cols : List PyArr)
    (ws : List String) (dict : List (String × PyArr × String)) (md : List (String × MVal))
    (st st' : LookSt) (cmd fpathS : String)
    (htop : parseTopHeader true bytes = .ok (th, bs1))
    (hhdr : parseHeaders true 32 bs1 = .ok (actives, bs2))
    (hcols : readCols "little" th.numRecs (actives.map fun a => a.2.1) 0 th.numCols.toNat bs2
             = .ok (cols, bs3))
    (hwf : ∀ a ∈ actives, a.2.1 = th.numRecs)
    (hncol : actives.length = th.numCols.toNat)
    (hnodup : ("rec_num" :: actives.map fun a => a.1).Nodup)
    (hrb : read_binary env.res bytes "little" "ignore" true = (ws, .ok (dict, md)))
    (hsplit : pySplit cmd ' ' = ["read", fpathS])
    (hfs : env.fs (pyStrip fpathS) = some bytes)
    (hcmd : command_read env st cmd = (ws, .ok st')) :
    dict.length = actives.length + 1 ∧
    dict.get? 0 = some ("rec_num", recNumArr th.numRecs.toNat, "dimensionless") ∧
    (∀ k, k < actives.length → ∃ a v, actives.get? k = some a ∧ cols.get? k = some v ∧
       dict.get? (k + 1) = some (a.1, v, resolvedUnit env.res a.2.2)) ∧
    (∀ k, k < dict.length → ∃ e, dict.get? k = some e ∧
       st'.data.get? k = some e.2.1 ∧
       st'.data_names.get? k = some (some e.1) ∧
       st'.data_units.get? k = some (some e.2.2)) ∧
    (∀ j, dict.length ≤ j →
       st'.data.get? j = st.data.get? j ∧
       st'.data_names.get? j = st.data_names.get? j ∧
       st'.data_units.get? j = st.data_units.get? j) := by
  have hchk : checkNArgs cmd 2 = true := by
    unfold checkNArgs numTokens
    rw [hsplit]
    rfl
  unfold command_read at hcmd
  rw [if_neg (by simp [hchk])] at hcmd
  rw [hsplit] at hcmd
  dsimp only at hcmd
  rw [hfs] at hcmd
  dsimp only at hcmd
  rw [hrb] at hcmd
  dsimp only at hcmd
  rcases hloop : readLoop dict 0 st with e | st2
  · rw [hloop] at hcmd
    dsimp only at hcmd
    injection hcmd with hcw hce
    exact absurd hce.symm (by simp)
  · rw [hloop] at hcmd
    dsimp only at hcmd
    injection hcmd with hcw hce
    injection hce with hst
    subst hst
    obtain ⟨hfill, hout⟩ := readLoop_spec dict 0 st st2 hloop
    unfold read_binary at hrb
    rw [htop] at hrb
    dsimp only at hrb
    rw [hhdr] at hrb
    dsimp only at hrb
    split at hrb
    · injection hrb with hw hr
      exact absurd hr.symm (by simp)
    · rw [hcols] at hrb
      dsimp only at hrb
      rcases hbd : buildDict env.res "ignore" cols th.numRecs.toNat actives 0
          [("rec_num", (recNumArr th.numRecs.toNat, "dimensionless"))] with ⟨w2, r2⟩
      rw [hbd] at hrb
      dsimp only at hrb
      injection hrb with hw hr
      rcases r2 with e2 | d2
      · exact absurd hr (by simp [Except.map])
      · simp only [Except.map] at hr
        injection hr with hr2
        injection hr2 with hd hm
        subst hd
        subst hw
        have hfresh : ∀ p ∈ [("rec_num", (recNumArr th.numRecs.toNat, "dimensionless"))],
            ∀ a ∈ actives, p.1 ≠ a.1 := by
          intro p hp a ha
          have hpe : p = ("rec_num", (recNumArr th.numRecs.toNat, "dimensionless")) := by
            simpa using hp
          subst hpe
          have hnm : "rec_num" ∉ actives.map (fun a => a.1) := hnodup.not_mem
          intro hc
          refine hnm ?_
          rw [show ("rec_num" : String) = a.1 from hc]
          exact List.mem_map_of_mem _ ha
        obtain ⟨hlen, hpre, hspec⟩ := buildDict_spec env.res "ignore" cols th.numRecs.toNat
          actives 0 _ d2 w2 hbd hfresh hnodup.of_cons
        obtain ⟨hclen, hcspec⟩ := readCols_ok_spec "little" th.numRecs
          (actives.map fun a => a.2.1) th.numCols.toNat 0 bs2 cols bs3 hcols
        refine ⟨by have h := hlen; simp at h; omega, ?_, ?_, ?_, ?_⟩
        · have h0 := hpre 0 (by simp)
          rw [h0]
          rfl
        · intro k hk
          obtain ⟨a, v, ha, hext, hdk⟩ := hspec k hk
          refine ⟨a, v, ha, ?_, ?_⟩
          · have hmem : a ∈ actives := List.get?_mem ha
            obtain ⟨ne, v', hne, hv', hv'len⟩ := hcspec k (by omega)
            have hnev : ne = th.numRecs := by
              have := hwf a hmem
              have hget : (actives.map fun a => a.2.1).get? (0 + k) = some a.2.1 := by
                simp only [Nat.zero_add, List.get?_map, ha]
                rfl
              rw [hget] at hne
              injection hne with hne2
              rw [← hne2, this]
            unfold extractColumn at hext
            rw [show (0 + k) = k from by omega] at hext
            rw [hv'] at hext
            dsimp only at hext
            injection hext with hvv
            rw [hv']
            rw [← hvv]
            congr 1
            rw [show th.numRecs.toNat - v'.length = 0 from by rw [hv'len, hnev]; omega]
            simp
          · have : (1 : Nat) + k = k + 1 := by omega
            rw [← this]
            simpa using hdk
        · intro k hk
          obtain ⟨e, he, h1, h2, h3⟩ := hfill k hk
          exact ⟨e, he, by simpa using h1, by simpa using h2, by simpa using h3⟩
        · intro j hj
          exact hout j (Or.inr (by omega))

set_option maxRecDepth 100000 in
/-- C3 counterexample: the claim says the returned mapping contains exactly
the active columns and that slot `i` holds the `i`-th active column.  But
`read_binary` inserts the synthetic `rec_num` column first
(lookfiles.py line 143), so on `file1` — whose only active header is
`colA` — the dict has the two keys `rec_num, colA` and after `read f1`
slot 0 is named `rec_num`, not `colA`. -/
theorem c3_counterexample_rec_num_shift :
    (parseHeaders true 32 (file1.drop 36)).map (fun p => p.1.map (fun a => a.1))
      = .ok ["colA"] ∧
    (read_binary env1.res file1 "little" "ignore" true).2.map
        (fun r => r.1.map (fun p => p.1)) = .ok ["rec_num", "colA"] ∧
    (command_read env1 initState "read f1").2.map (fun st => st.data_names.get? 0)
      = .ok (some (some "rec_num")) ∧
    (some (some "rec_num") : Option (Option String)) ≠ some (some "colA") := by
  refine ⟨by with_unfolding_all decide, by with_unfolding_all decide,
    by with_unfolding_all decide, by with_unfolding_all decide⟩

set_option maxRecDepth 100000 in
/-- C3 witness: the amended layout theorem instantiated on the concrete file
`file1`: after `read f1` from the initial state, `rec_num` occupies slot 0,
the single active column `colA` occupies slot 1 with its read values and
resolved (dimensionless) unit, and slot 2 is untouched. -/
theorem c3_amended_witness :
    dictF1.length = activesF1.length + 1 ∧
    dictF1.get? 0 = some ("rec_num", recNumArr thF1.numRecs.toNat, "dimensionless") ∧
    dictF1.get? 1 = some ("colA", [some 0, some 0, some 0], resolvedUnit env1.res "") ∧
    stF1.data_names.get? 0 = some (some "rec_num") ∧
    stF1.data_names.get? 1 = some (some "colA") ∧
    stF1.data.get? 1 = some [some 0, some 0, some 0] ∧
    stF1.data.get? 2 = initState.data.get? 2 := by
  have h := c3_amended_read_layout env1 file1 thF1 (file1.drop 36) (List.replicate 24 0) []
      activesF1 colsF1 [unknownUnitWarn ""] dictF1 thF1.metadata initState stF1 "read f1" "f1"
      (by with_unfolding_all rfl) (by with_unfolding_all rfl)
      (by with_unfolding_all rfl) (by with_unfolding_all decide)
      (by with_unfolding_all decide) (by with_unfolding_all decide)
      (by with_unfolding_all rfl) (by with_unfolding_all decide)
      (by with_unfolding_all rfl) (by with_unfolding_all rfl)
  refine ⟨h.1, h.2.1, ?_, ?_, ?_, ?_, (h.2.2.2.2 2 (by with_unfolding_all decide)).1⟩
  · obtain ⟨a, v, ha, hv, hd⟩ := h.2.2.1 0 (by with_unfolding_all decide)
    have ha2 : some (("colA", (3 : Int), "")) = some a := ha
    have hv2 : some ([some 0, some 0, some 0] : PyArr) = some v := hv
    injection ha2 with ha3
    injection hv2 with hv3
    rw [← ha3, ← hv3] at hd
    exact hd
  · obtain ⟨e, he, h1, h2, h3⟩ := h.2.2.2.1 0 (by with_unfolding_all decide)
    have he2 : some (("rec_num", ([some 0, some 1, some 2] : PyArr), "dimensionless"))
        = some e := he
    injection he2 with he3
    rw [← he3] at h2
    exact h2
  · obtain ⟨e, he, h1, h2, h3⟩ := h.2.2.2.1 1 (by with_unfolding_all decide)
    have he2 : some (("colA", ([some 0, some 0, some 0] : PyArr), "dimensionless"))
        = some e := he
    injection he2 with he3
    rw [← he3] at h2
    exact h2
  · obtain ⟨e, he, h1, h2, h3⟩ := h.2.2.2.1 1 (by with_unfolding_all decide)
    have he2 : some (("colA", ([some 0, some 0, some 0] : PyArr), "dimensionless"))
        = some e := he
    injection he2 with he3
    rw [← he3] at h1
    exact h1

end Pylook
